import Mathlib

/-!
# Raylar: recursive shading and light transport

A shallow embedding of `raytracer/triangle.go` and `raytracer/light.go`, and
of the flattening of the object hierarchy of `raytracer/scene.go`.

Numbers. A Go `float64` is modelled by `F64`: an exact rational, or one of the
IEEE 754 special values (the two infinities and NaN).  Arithmetic on finite
values is exact (rounding, overflow and the sign of zero are not modelled);
the special values follow IEEE 754, so a division by zero yields an infinity
or NaN and NaN compares false with everything.  Go `int` values are `Int`.

Pointers. `IntersectionTriangle.Triangle` is a `*Triangle`; it is modelled by
`Option Triangle`.  Dereferencing `nil` is a run-time panic: the functions
that are not recursive return an `Option`, where `none` is that panic, and
`render` returns an `Except Fault`.  The objects of the scene hierarchy are
reached through pointers and written through them: each has an address, and
the matrices are kept by address.

Globals. `GlobalConfig` is passed explicitly as `cfg : Config`.  Functions of
the package whose source is not part of the embedded files are collected in
the record `Externals` and passed explicitly as well.
-/

namespace Raylar

/-! ## float64 -/

/-- A float64 value: an exact rational, an infinity (`inf true` is the negative
one), or NaN. -/
inductive F64 where
  | fin (q : ℚ)
  | inf (negative : Bool)
  | nan
deriving DecidableEq

namespace F64

instance : Inhabited F64 := ⟨fin 0⟩
instance : Zero F64 := ⟨fin 0⟩
instance : One F64 := ⟨fin 1⟩

/-- The conversion `float64(n)` of an integer. -/
def ofInt (n : Int) : F64 := fin n

/-- The conversion `float64(n)` of a length. -/
def ofNat (n : Nat) : F64 := fin n

/-- Whether the value is a finite number. -/
def isFinite : F64 → Bool
  | fin _ => true
  | _ => false

/-- Go `-x`. -/
def neg : F64 → F64
  | fin a => fin (-a)
  | inf s => inf (!s)
  | nan => nan

/-- Go `x + y`. -/
def add : F64 → F64 → F64
  | fin a, fin b => fin (a + b)
  | fin _, inf s => inf s
  | inf s, fin _ => inf s
  | inf s, inf r => if s = r then inf s else nan
  | nan, _ => nan
  | _, nan => nan

/-- Go `x - y`. -/
def sub (a b : F64) : F64 := add a (neg b)

/-- Go `x * y`. -/
def mul : F64 → F64 → F64
  | fin a, fin b => fin (a * b)
  | fin a, inf s => if a = 0 then nan else inf (xor s (decide (a < 0)))
  | inf s, fin b => if b = 0 then nan else inf (xor s (decide (b < 0)))
  | inf s, inf r => inf (xor s r)
  | nan, _ => nan
  | _, nan => nan

/-- Go `x / y` (a run-time float division never panics). -/
def div : F64 → F64 → F64
  | fin a, fin b =>
      if b = 0 then (if a = 0 then nan else inf (decide (a < 0))) else fin (a / b)
  | fin _, inf _ => fin 0
  | inf s, fin b => inf (xor s (decide (b < 0)))
  | inf _, inf _ => nan
  | nan, _ => nan
  | _, nan => nan

instance : Neg F64 := ⟨neg⟩
instance : Add F64 := ⟨add⟩
instance : Sub F64 := ⟨sub⟩
instance : Mul F64 := ⟨mul⟩
instance : Div F64 := ⟨div⟩

/-- Go `x < y`: false as soon as one side is NaN. -/
def blt : F64 → F64 → Bool
  | fin a, fin b => decide (a < b)
  | fin _, inf s => !s
  | inf s, fin _ => s
  | inf s, inf r => s && !r
  | nan, _ => false
  | _, nan => false

/-- Go `x <= y`: false as soon as one side is NaN. -/
def ble : F64 → F64 → Bool
  | fin a, fin b => decide (a ≤ b)
  | fin _, inf s => !s
  | inf s, fin _ => s
  | inf s, inf r => s || !r
  | nan, _ => false
  | _, nan => false

/-- Go `x == y`: NaN is not equal to itself. -/
def feq : F64 → F64 → Bool
  | fin a, fin b => decide (a = b)
  | inf s, inf r => s == r
  | _, _ => false

instance : LT F64 := ⟨fun a b => blt a b = true⟩
instance : LE F64 := ⟨fun a b => ble a b = true⟩
instance (a b : F64) : Decidable (a < b) := inferInstanceAs (Decidable (blt a b = true))
instance (a b : F64) : Decidable (a ≤ b) := inferInstanceAs (Decidable (ble a b = true))

/-- Go `math.Floor`. -/
def floor : F64 → F64
  | fin a => fin (⌊a⌋ : Int)
  | x => x

/-- Go `math.Abs`. -/
def abs : F64 → F64
  | fin a => fin |a|
  | inf _ => inf false
  | nan => nan

/-- Go `math.Max`: an argument `+Inf` wins, then NaN, then the larger one. -/
def max : F64 → F64 → F64
  | inf false, _ => inf false
  | _, inf false => inf false
  | nan, _ => nan
  | _, nan => nan
  | inf true, y => y
  | x, inf true => x
  | fin a, fin b => fin (Max.max a b)

/-- The integer part of a rational, rounding toward zero. -/
def truncQ (q : ℚ) : Int := if 0 ≤ q then ⌊q⌋ else ⌈q⌉

/-- Go `int(x)` and `int64(x)` on a 64-bit target: truncation toward zero.
A value the type cannot represent (out of range, infinite or NaN) converts to
an implementation-dependent integer; the amd64 value, the least int64, is
used. -/
def toInt : F64 → Int
  | fin q => if -(2 : Int) ^ 63 ≤ truncQ q ∧ truncQ q < (2 : Int) ^ 63 then truncQ q
             else -(2 : Int) ^ 63
  | _ => -(2 : Int) ^ 63

end F64

/-! ## Vectors -/

/-- A `Vector` of the package is a `[4]float64`. -/
structure Vector where
  c0 : F64
  c1 : F64
  c2 : F64
  c3 : F64
deriving DecidableEq

namespace Vector

/-- The Go zero value `Vector{}`. -/
def zero : Vector := ⟨0, 0, 0, 0⟩

instance : Inhabited Vector := ⟨zero⟩

end Vector

/-- Modelled from the spec: `addVector` is part of the geometry kernel, whose
source is not among the embedded files; the spec has contributions "summed
into one energy vector" of four components, so it adds component-wise. -/
def addVector (a b : Vector) : Vector :=
  ⟨a.c0 + b.c0, a.c1 + b.c1, a.c2 + b.c2, a.c3 + b.c3⟩

/-- Modelled from the spec: `subVector` is part of the geometry kernel, whose
source is not among the embedded files; it subtracts component-wise. -/
def subVector (a b : Vector) : Vector :=
  ⟨a.c0 - b.c0, a.c1 - b.c1, a.c2 - b.c2, a.c3 - b.c3⟩

/-- Modelled from the spec: `scaleVector` is part of the geometry kernel, whose
source is not among the embedded files; it multiplies each of the four
components by the factor. -/
def scaleVector (a : Vector) (k : F64) : Vector :=
  ⟨a.c0 * k, a.c1 * k, a.c2 * k, a.c3 * k⟩

/-- One channel of `limitVector`. -/
def limitChannel (c factor : F64) : F64 :=
  if factor < c then factor else if c < 0 then 0 else c

/-- Modelled from the spec: `limitVector` is part of the geometry kernel, whose
source is not among the embedded files; the spec has `limitVector(color, 1)`
"clamp each channel to [0,1]", so each channel is clamped to `[0, factor]`. -/
def limitVector (v : Vector) (factor : F64) : Vector :=
  ⟨limitChannel v.c0 factor, limitChannel v.c1 factor,
   limitChannel v.c2 factor, limitChannel v.c3 factor⟩

/-! ## Data model -/

/-- The fields of `Material` that the shading code reads (the struct itself is
declared outside the embedded files). -/
structure Material where
  Color : Vector := Vector.zero
  Texture : String := ""
  Light : Bool := false
  LightStrength : F64 := 0
  Glossiness : F64 := 0
  Roughness : F64 := 0
  Transmission : F64 := 0
  IndexOfRefraction : F64 := 0

/-- The fields of `Photon` that the shading code reads. -/
structure Photon where
  Location : Vector := Vector.zero
  Color : Vector := Vector.zero

/-- The struct `Triangle` of `triangle.go`. -/
structure Triangle where
  id : Int := 0
  P1 : Vector := Vector.zero
  P2 : Vector := Vector.zero
  P3 : Vector := Vector.zero
  N1 : Vector := Vector.zero
  N2 : Vector := Vector.zero
  N3 : Vector := Vector.zero
  T1 : Vector := Vector.zero
  T2 : Vector := Vector.zero
  T3 : Vector := Vector.zero
  Material : Material := {}
  Photons : List Photon := []
  Smooth : Bool := false

/-- The struct `IntersectionTriangle` of `triangle.go`; `Triangle` is a
pointer, `none` is `nil`. -/
structure IntersectionTriangle where
  Hit : Bool := false
  Triangle : Option Triangle := none
  Intersection : Vector := Vector.zero
  IntersectionNormal : Vector := Vector.zero
  RayStart : Vector := Vector.zero
  RayDir : Vector := Vector.zero
  ObjectName : String := ""
  Dist : F64 := 0
  Hits : Int := 0

/-- The struct `Light` of `scene.go`, with the two fields `Direction` and
`Directional` that `light.go` reads in addition. -/
structure Light where
  Position : Vector := Vector.zero
  Direction : Vector := Vector.zero
  Color : Vector := Vector.zero
  Active : Bool := false
  Directional : Bool := false
  LightStrength : F64 := 0

/-- What the shading code uses of an `image.Image`: the corner
`Bounds().Max` and, for each pixel, the four `uint32` values of
`At(x, y).RGBA()`. -/
structure Image where
  MaxX : Int
  MaxY : Int
  At : Int → Int → Nat × Nat × Nat × Nat

/-- The fields of `Scene` that the shading code reads itself: the lights and
the texture map (a missing key is `none`).  The objects and their spatial
index are only reached through `raycastSceneIntersect`. -/
structure Scene where
  Lights : List Light := []
  ImageMap : String → Option Image := fun _ => none

/-- The struct `Config` of `config.go` (the type of `GlobalConfig`), with the
four fields `Exposure`, `LightSampleCount`, `PhotonSpacing` and
`RenderCaustics` that `light.go` reads in addition. -/
structure Config where
  SamplerLimit : Int := 0
  LightHardLimit : F64 := 0
  MaxReflectionDepth : Int := 0
  RayCorrection : F64 := 0
  OcclusionRate : F64 := 0
  AmbientRadius : F64 := 0
  RenderOcclusion : Bool := false
  RenderLights : Bool := false
  RenderColors : Bool := false
  RenderAmbientColors : Bool := false
  AmbientColorSharingRatio : F64 := 0
  RenderReflections : Bool := false
  Width : Int := 0
  Height : Int := 0
  EdgeDetechThreshold : F64 := 0
  Profiling : Bool := false
  Exposure : F64 := 0
  LightSampleCount : Int := 0
  PhotonSpacing : F64 := 0
  RenderCaustics : Bool := false

/-- The constant and the functions of the package that the embedded code
calls and whose source is not part of the embedded files.  They are taken as
parameters: every result below holds for every choice of them.  Each is a
total function of its arguments, and none of them calls `render`. -/
structure Externals where
  DIFF : F64
  dot : Vector → Vector → F64
  normalizeVector : Vector → Vector
  vectorDistance : Vector → Vector → F64
  sameSideTest : Vector → Vector → F64 → Bool
  reflectVector : Vector → Vector → Vector
  refractVector : Vector → Vector → F64 → Vector
  sampleSphere : F64 → Int → List Vector
  createSamples : Vector → Int → F64 → List Vector
  barycentricCoordinates : Vector → Vector → Vector → Vector → F64 × F64 × F64 × Bool
  raycastSceneIntersect : Scene → Vector → Vector → IntersectionTriangle
  ambientSampling : Scene → IntersectionTriangle → List Vector
  ambientLightCalc : Scene → IntersectionTriangle → List Vector → Int → F64
  ambientColor : Scene → IntersectionTriangle → List Vector → Int → Vector

/-- Runs `f` on each element in list order and collects the values; `none`, a
run-time panic on a nil triangle pointer, aborts (a panic in any goroutine
ends the program). -/
def collect {α β : Type} (f : α → Option β) : List α → Option (List β)
  | [] => some []
  | a :: rest =>
    match f a with
    | none => none
    | some b =>
      match collect f rest with
      | none => none
      | some bs => some (b :: bs)

/-! ## light.go -/

/-- The test `shortestIntersection.Triangle != nil &&
shortestIntersection.Triangle.id == intersection.Triangle.id` of
`light.go`, lines 35 and 94. -/
def sameTriangle (shortest intersection : IntersectionTriangle) : Option Bool :=
  match shortest.Triangle with
  | none => some false
  | some st =>
    match intersection.Triangle with
    | none => none
    | some t => some (decide (st.id = t.id))

/-- The shadow ray of one sample of a directional light and its nearest hit:
`light.go`, lines 29 to 34. -/
def directionalShadowRay (x : Externals) (scene : Scene) (intersection : IntersectionTriangle)
    (lightD sample : Vector) : IntersectionTriangle :=
  let rayStart := scaleVector lightD (F64.fin 999999999999)
  let rayStart := addVector rayStart intersection.Intersection
  let rayStart := addVector rayStart sample
  let dir := x.normalizeVector (subVector intersection.Intersection rayStart)
  x.raycastSceneIntersect scene rayStart dir

/-- The loop over the samples of `calculateDirectionalLight`: `light.go`, lines
28 to 51.  The state is `(totalLight, totalHits)`; `none` is the `return` of
line 37, which leaves the function with the zero result. -/
def directionalLoop (x : Externals) (cfg : Config) (scene : Scene)
    (intersection : IntersectionTriangle) (light : Light) (lightD : Vector) (dotP : F64) :
    List Vector → Vector → F64 → Option (Option (Vector × F64))
  | [], totalLight, totalHits => some (some (totalLight, totalHits))
  | sample :: rest, totalLight, totalHits =>
    let shortestIntersection := directionalShadowRay x scene intersection lightD sample
    match sameTriangle shortestIntersection intersection with
    | none => none
    | some same =>
      if same = true ∨ shortestIntersection.Dist < x.DIFF then
        if x.sameSideTest intersection.IntersectionNormal
            shortestIntersection.IntersectionNormal 0 = false then
          some none
        else
          let intensity := dotP * light.LightStrength
          let intensity := intensity * cfg.Exposure
          directionalLoop x cfg scene intersection light lightD dotP rest
            (addVector totalLight
              ⟨light.Color.c0 * intensity, light.Color.c1 * intensity,
               light.Color.c2 * intensity, intensity⟩)
            (totalHits + 1)
      else
        directionalLoop x cfg scene intersection light lightD dotP rest totalLight totalHits

/-- The function `calculateDirectionalLight` of `light.go`, lines 11 to 57. -/
def calculateDirectionalLight (x : Externals) (cfg : Config) (scene : Scene)
    (intersection : IntersectionTriangle) (light : Light) (_depth : Int) :
    Option Vector :=
  if intersection.Hit = false then some Vector.zero
  else
    let lightD := scaleVector light.Direction (F64.fin (-1))
    let dotP := x.dot intersection.IntersectionNormal lightD
    if dotP < 0 then some Vector.zero
    else
      let samples := x.sampleSphere (F64.fin (1 / 5)) cfg.LightSampleCount
      match directionalLoop x cfg scene intersection light lightD dotP samples Vector.zero 0 with
      | none => none
      | some none => some Vector.zero
      | some (some (totalLight, totalHits)) =>
        if 0 < totalHits then
          some (scaleVector totalLight (totalHits / F64.ofInt cfg.LightSampleCount))
        else some Vector.zero

/-- The function `calculateLight` of `light.go`, lines 61 to 114.  The second
component of the result is the store of line 77: `some s` when the call writes
`s` to `Material.LightStrength` of the shaded triangle, `none` when it writes
nothing. -/
def calculateLight (x : Externals) (cfg : Config) (scene : Scene)
    (intersection : IntersectionTriangle) (light : Light) (_depth : Int) :
    Option (Vector × Option F64) :=
  if intersection.Hit = false then some (Vector.zero, none)
  else
    let l1 := x.normalizeVector (subVector light.Position intersection.Intersection)
    let l2 := intersection.IntersectionNormal
    let dotP := x.dot l2 l1
    if dotP < 0 then some (Vector.zero, none)
    else
      match intersection.Triangle with
      | none => none
      | some t =>
        if t.Material.Light = true then
          let store :=
            if F64.feq t.Material.LightStrength 0 = true then some light.LightStrength else none
          let strength := store.getD t.Material.LightStrength
          some (⟨cfg.Exposure * light.Color.c0 * strength,
                cfg.Exposure * light.Color.c1 * strength,
                cfg.Exposure * light.Color.c2 * strength, 1⟩, store)
        else
          let rayDir := x.normalizeVector (subVector intersection.Intersection light.Position)
          let rayStart := light.Position
          let rayLength := x.vectorDistance intersection.Intersection light.Position
          let shortestIntersection := x.raycastSceneIntersect scene rayStart rayDir
          let s := F64.abs (rayLength - shortestIntersection.Dist)
          match sameTriangle shortestIntersection intersection with
          | none => none
          | some same =>
            if same = true ∨ s < x.DIFF then
              if x.sameSideTest intersection.IntersectionNormal
                  shortestIntersection.IntersectionNormal 0 = false then
                some (Vector.zero, none)
              else
                let intensity := (1 / (rayLength * rayLength)) * cfg.Exposure
                let intensity := intensity * (dotP * light.LightStrength)
                let intensity :=
                  if 0 < t.Material.LightStrength then t.Material.LightStrength * cfg.Exposure
                  else intensity
                some (⟨light.Color.c0 * intensity, light.Color.c1 * intensity,
                      light.Color.c2 * intensity, intensity⟩, none)
            else some (Vector.zero, none)

/-- The body of one goroutine of `calculateTotalLight`: `light.go`, lines 130
to 134. -/
def lightContribution (x : Externals) (cfg : Config) (scene : Scene)
    (intersection : IntersectionTriangle) (depth : Int) (light : Light) : Option Vector :=
  if light.Directional = true then calculateDirectionalLight x cfg scene intersection light depth
  else
    match calculateLight x cfg scene intersection light depth with
    | none => none
    | some r => some r.1

/-- One round of the receive loop of `calculateTotalLight`: `light.go`, lines
140 to 143. -/
def receiveLight (result light : Vector) : Vector :=
  if 0 < light.c3 then addVector result light else result

/-- The caustic term of `calculateTotalLight`: `light.go`, lines 146 to 155. -/
def causticLight (x : Externals) (cfg : Config) (t : Triangle)
    (intersection : IntersectionTriangle) (result : Vector) : Vector :=
  if 0 < cfg.PhotonSpacing ∧ cfg.RenderCaustics = true then
    t.Photons.foldl
      (fun result photon =>
        if x.vectorDistance photon.Location intersection.Intersection < cfg.PhotonSpacing then
          addVector result (scaleVector photon.Color cfg.Exposure)
        else result)
      result
  else result

/-- The function `calculateTotalLight` of `light.go`, lines 116 to 158, with
the order in which the results of the goroutines are received from the
channel made explicit: `arrival` lists the lights in that order. -/
def calculateTotalLightRecv (x : Externals) (cfg : Config) (scene : Scene)
    (intersection : IntersectionTriangle) (depth : Int) (arrival : List Light) :
    Option Vector :=
  if intersection.Hit = false ∨ depth ≥ cfg.MaxReflectionDepth then some Vector.zero
  else
    match intersection.Triangle with
    | none => none
    | some t =>
      if t.Material.Light = true then
        some (scaleVector t.Material.Color t.Material.LightStrength)
      else
        match collect (lightContribution x cfg scene intersection depth) arrival with
        | none => none
        | some received =>
          some (causticLight x cfg t intersection (received.foldl receiveLight Vector.zero))

/-- The function `calculateTotalLight` of `light.go` when the results arrive in
the order of `scene.Lights`. -/
def calculateTotalLight (x : Externals) (cfg : Config) (scene : Scene)
    (intersection : IntersectionTriangle) (depth : Int) : Option Vector :=
  calculateTotalLightRecv x cfg scene intersection depth scene.Lights

/-! ## triangle.go -/

/-- The method `getTexCoords` of `triangle.go`, lines 72 to 79. -/
def getTexCoords (x : Externals) (i : IntersectionTriangle) : Option Vector :=
  match i.Triangle with
  | none => none
  | some t =>
    let (u, v, w, _) := x.barycentricCoordinates t.P1 t.P2 t.P3 i.Intersection
    some ⟨u * t.T1.c0 + v * t.T2.c0 + w * t.T3.c0,
         u * t.T1.c1 + v * t.T2.c1 + w * t.T3.c1, 0, 0⟩

/-- The wrap-around of the first texture coordinate: `triangle.go`, lines 259
to 265. -/
def wrapCoordinate (s : F64) : F64 :=
  let s := if 1 < s then s - F64.floor s else s
  if s < 0 then
    let s := F64.abs s
    1 - (s - F64.floor s)
  else s

/-- The removal of the integer part, `s -= float64(int64(s))`: `triangle.go`,
lines 277 and 278. -/
def dropInteger (s : F64) : F64 := s - F64.ofInt (F64.toInt s)

/-- The method `getColor` of `triangle.go`, lines 238 to 294. -/
def getColor (x : Externals) (cfg : Config) (scene : Scene) (i : IntersectionTriangle)
    (_depth : Int) : Option Vector :=
  if i.Hit = false then some ⟨0, 0, 0, 1⟩
  else if cfg.RenderColors = false then some ⟨1, 1, 1, 1⟩
  else
    match i.Triangle with
    | none => none
    | some t =>
      let material := t.Material
      let result := material.Color
      if material.Texture ≠ "" then
        match scene.ImageMap material.Texture with
        | some img =>
          match getTexCoords x i with
          | none => none
          | some s =>
            let s0 := wrapCoordinate s.c0
            let s1 := wrapCoordinate s.c1
            let s1 := 1 - s1
            let s0 := dropInteger s0
            let s1 := dropInteger s1
            let pixelX := F64.toInt (F64.ofInt img.MaxX * s0)
            let pixelY := F64.toInt (F64.ofInt img.MaxY * s1)
            let (r, g, b, a) := img.At pixelX pixelY
            let (r, g, b, a) := (r >>> 8, g >>> 8, b >>> 8, a >>> 8)
            some ⟨F64.ofNat r / F64.fin 255, F64.ofNat g / F64.fin 255,
                 F64.ofNat b / F64.fin 255, F64.ofNat a / F64.fin 255⟩
        | none => some result
      else some result

/-- The method `getDirectLight` of `triangle.go`, lines 234 to 236. -/
def getDirectLight (x : Externals) (cfg : Config) (scene : Scene) (i : IntersectionTriangle)
    (_depth : Int) : Option Vector :=
  calculateTotalLight x cfg scene i 0

/-- The first part of `render`, from the ambient samples to the clamp of the
combined color: `triangle.go`, lines 116 to 169. -/
def surfaceColor (x : Externals) (cfg : Config) (scene : Scene) (i : IntersectionTriangle)
    (depth : Int) : Option Vector :=
  let samples := x.ambientSampling scene i
  match (if cfg.RenderLights = true then getDirectLight x cfg scene i depth
         else some Vector.zero) with
  | none => none
  | some light =>
    let light : Vector :=
      if cfg.RenderOcclusion = true then
        let aRate := x.ambientLightCalc scene i samples cfg.SamplerLimit
        let aRate := aRate * cfg.OcclusionRate
        ⟨light.c0 + aRate, light.c1 + aRate, light.c2 + aRate, 1⟩
      else light
    match getColor x cfg scene i depth with
    | none => none
    | some color =>
      let color : Vector :=
        if cfg.RenderAmbientColors = true then
          let aColor := x.ambientColor scene i samples cfg.SamplerLimit
          let r := cfg.AmbientColorSharingRatio
          limitVector
            ⟨(color.c0 * (1 - r)) + (aColor.c0 * r),
             (color.c1 * (1 - r)) + (aColor.c1 * r),
             (color.c2 * (1 - r)) + (aColor.c2 * r), 1⟩ 1
        else color
      let pAlpha : F64 := if i.Dist < 0 then 0 else 1
      let color : Vector :=
        ⟨color.c0 * light.c0, color.c1 * light.c1, color.c2 * light.c2, pAlpha⟩
      some (limitVector color 1)

/-- The list `dirs` of `render`: `triangle.go`, lines 167 to 181. -/
def sampleDirs (x : Externals) (i : IntersectionTriangle) (m : Material) : List Vector :=
  if 0 < m.Glossiness ∨ 0 < m.Transmission then
    if F64.feq m.Roughness 0 = true then [i.IntersectionNormal]
    else
      let numNormals := F64.toInt (F64.floor (m.Roughness * F64.fin 10))
      if numNormals > 0 then x.createSamples i.IntersectionNormal numNormals (1 - m.Roughness)
      else []
  else []

/-- The sum of the colors received from the channel, scaled by
`1.0/float64(len(dirs))`: `triangle.go`, lines 193 to 197 and 216 to 220. -/
def averageColor (received : List Vector) (count : Nat) : Vector :=
  scaleVector (received.foldl addVector Vector.zero) (1 / F64.ofNat count)

/-- The linear blend of lines 199 to 204 and 223 to 228 of `triangle.go`. -/
def blendColor (color collColor : Vector) (k : F64) : Vector :=
  ⟨color.c0 * (1 - k) + collColor.c0 * k,
   color.c1 * (1 - k) + collColor.c1 * k,
   color.c2 * (1 - k) + collColor.c2 * k, 1⟩

/-- The ray a reflection goroutine shades: `triangle.go`, lines 188 and 189. -/
def reflectionTarget (x : Externals) (scene : Scene) (i : IntersectionTriangle)
    (dir : Vector) : IntersectionTriangle :=
  let dir := x.reflectVector i.RayDir dir
  x.raycastSceneIntersect scene i.Intersection dir

/-- The ray a refraction goroutine shades: `triangle.go`, lines 211 and 212.
The sample direction it is given is overwritten. -/
def refractionTarget (x : Externals) (scene : Scene) (i : IntersectionTriangle)
    (t : Triangle) (_dir : Vector) : IntersectionTriangle :=
  let dir := x.refractVector i.RayDir i.IntersectionNormal t.Material.IndexOfRefraction
  x.raycastSceneIntersect scene i.Intersection dir

/-- The arguments `(dirs[m], depth+1)` with which the goroutines of one fan-out
are started, one per direction: `triangle.go`, lines 186 to 191 and 209 to
214. -/
def spawnArguments (dirs : List Vector) (depth : Int) : List (Vector × Int) :=
  dirs.map (fun dir => (dir, depth + 1))

/-- The ways a call of `render` can fail to return a value: a run-time panic on
a nil triangle pointer, or the recursion budget of the model running out. -/
inductive Fault where
  | nilDereference
  | outOfFuel
deriving DecidableEq

/-- Runs `f` on each element in list order and collects the values; the first
fault aborts (a panic in any goroutine ends the program). -/
def gather {α β : Type} (f : α → Except Fault β) : List α → Except Fault (List β)
  | [] => .ok []
  | a :: rest =>
    match f a with
    | .error e => .error e
    | .ok b =>
      match gather f rest with
      | .error e => .error e
      | .ok bs => .ok (b :: bs)

/-- A record of one nested call of `render`: the depth of the calling
invocation and the depth argument the nested call received. -/
abbrev CallEdge := Int × Int

/-- The value a call of `render` yields in the model: the color, and the
records of all nested `render` calls made, directly or not, during the call. -/
abbrev Shaded := Except Fault (Vector × List CallEdge)

/-- One fan-out of `render`: `triangle.go`, lines 185 to 196 and 208 to 219.
A goroutine is started for each direction with the arguments of
`spawnArguments`; it shades the ray `target dir` by the nested call
`target.render(scene, depth)`, here `nested`, with the depth it was given.
The goroutines are run in the order of `dirs`. -/
def fanOut (nested : IntersectionTriangle → Int → Shaded)
    (target : Vector → IntersectionTriangle) (dirs : List Vector) (depth : Int) :
    Except Fault (List (Vector × List CallEdge)) :=
  gather (fun (arg : Vector × Int) =>
      match nested (target arg.1) arg.2 with
      | .error e => .error e
      | .ok r => .ok (r.1, (depth, arg.2) :: r.2))
    (spawnArguments dirs depth)

/-- The body of the method `render` of `triangle.go`, lines 108 to 232, with
the method itself, as it is called at lines 190 and 213, passed as `nested`. -/
def renderBody (x : Externals) (cfg : Config) (scene : Scene)
    (nested : IntersectionTriangle → Int → Shaded) (i : IntersectionTriangle) (depth : Int) :
    Shaded :=
  if i.Hit = false then .ok (Vector.zero, [])
  else if depth ≥ cfg.MaxReflectionDepth then .ok (Vector.zero, [])
  else
    match surfaceColor x cfg scene i depth with
    | none => .error .nilDereference
    | some color =>
      match i.Triangle with
      | none => .error .nilDereference
      | some t =>
        let dirs := sampleDirs x i t.Material
        let reflected : Shaded :=
          if 0 < t.Material.Glossiness then
            match fanOut nested (reflectionTarget x scene i) dirs depth with
            | .error e => .error e
            | .ok rs =>
              let collColor := averageColor (rs.map Prod.fst) dirs.length
              .ok (blendColor color collColor t.Material.Glossiness, (rs.map Prod.snd).flatten)
          else .ok (color, [])
        match reflected with
        | .error e => .error e
        | .ok (color, calls) =>
          if 0 < t.Material.Transmission then
            match fanOut nested (refractionTarget x scene i t) dirs depth with
            | .error e => .error e
            | .ok rs =>
              let collColor := averageColor (rs.map Prod.fst) dirs.length
              let trans := t.Material.Transmission * (1 - t.Material.Roughness)
              .ok (blendColor color collColor trans, calls ++ (rs.map Prod.snd).flatten)
          else .ok (color, calls)

/-- The method `render` of `triangle.go`, instrumented with the records of the
nested calls.  `fuel` bounds the nesting of calls the model follows; running
out of it is the fault `outOfFuel`. -/
def renderCalls (x : Externals) (cfg : Config) (scene : Scene) :
    Nat → IntersectionTriangle → Int → Shaded
  | 0 => fun _ _ => .error .outOfFuel
  | fuel + 1 => renderBody x cfg scene (renderCalls x cfg scene fuel)

/-- The method `render` of `triangle.go`: the color `renderCalls` returns. -/
def render (x : Externals) (cfg : Config) (scene : Scene) (fuel : Nat)
    (i : IntersectionTriangle) (depth : Int) : Except Fault Vector :=
  match renderCalls x cfg scene fuel i depth with
  | .error e => .error e
  | .ok r => .ok r.1

/-! ## scene.go -/

/-- A Go `map[string]*Object` of a scene hierarchy, as the sequence of its
entries in the order in which `range` visits them.  An entry has the key, the
address of the object its pointer points to, and the `Children` map of that
object.  The hierarchy read from a scene file is finite, and
`flattenSceneObjects` writes no `Children` map, so the maps below an object
are part of the value; the `Matrix` fields, which `flattenSceneObjects` does
write, are kept apart, by address.  (The struct `Object` is declared outside
the embedded files; a nil pointer in the map is not modelled.) -/
inductive Objects where
  | nil : Objects
  | cons (name : String) (addr : Nat) (Children : Objects) (rest : Objects) : Objects

/-- The value `len(m)` of a map. -/
def Objects.length : Objects → Nat
  | .nil => 0
  | .cons _ _ _ rest => rest.length + 1

/-- A pointer `*Object`: the address of the object and the `Children` map
found there. -/
structure ObjectRef where
  addr : Nat
  Children : Objects

/-- The write `m[k] = v` on a Go map kept as the list of its entries. -/
def mapSet {V : Type} (m : List (String × V)) (k : String) (v : V) : List (String × V) :=
  if k ∈ m.map Prod.fst then m.map (fun e => if e.1 = k then (k, v) else e)
  else m ++ [(k, v)]

/-- The loop over `flatList` of `flattenSceneObjects`: `scene.go`, lines 258 to
262.  `k` is the key and `parent` the address of `objects[k]`; the state is
the map `result` and the `Matrix` field of the object at each address.  The
type `Matrix` and `multiplyMatrix` are declared outside the embedded files and
are parameters. -/
def flattenChildren {Mat : Type} (multiplyMatrix : Mat → Mat → Mat) (k : String)
    (parent : Nat) :
    List (String × ObjectRef) → List (String × ObjectRef) × (Nat → Mat) →
      List (String × ObjectRef) × (Nat → Mat)
  | [], state => state
  | (subKey, subObj) :: rest, (result, matrix) =>
    let matrix := Function.update matrix subObj.addr
      (multiplyMatrix (matrix subObj.addr) (matrix parent))
    flattenChildren multiplyMatrix k parent rest (mapSet result (k ++ subKey) subObj, matrix)

/-- The loop over `objects` of `flattenSceneObjects`, from a given state of
`result` and of the matrices: `scene.go`, lines 254 to 264.  `order` gives the
order in which `range` visits the entries of a map. -/
def flattenInto {Mat : Type} (multiplyMatrix : Mat → Mat → Mat)
    (order : List (String × ObjectRef) → List (String × ObjectRef)) :
    Objects → List (String × ObjectRef) → (Nat → Mat) →
      List (String × ObjectRef) × (Nat → Mat)
  | .nil, result, matrix => (result, matrix)
  | .cons k addr children rest, result, matrix =>
    let result := mapSet result k ⟨addr, children⟩
    let state :=
      if children.length > 0 then
        let flat := flattenInto multiplyMatrix order children [] matrix
        flattenChildren multiplyMatrix k addr (order flat.1) (result, flat.2)
      else (result, matrix)
    flattenInto multiplyMatrix order rest state.1 state.2

/-- The function `flattenSceneObjects` of `scene.go`, lines 252 to 266: the map
it returns and the matrices of the objects after the call. -/
def flattenSceneObjects {Mat : Type} (multiplyMatrix : Mat → Mat → Mat)
    (order : List (String × ObjectRef) → List (String × ObjectRef))
    (objects : Objects) (matrix : Nat → Mat) : List (String × ObjectRef) × (Nat → Mat) :=
  flattenInto multiplyMatrix order objects [] matrix

/-- The method `Scene.flatten` of `scene.go`, lines 222 to 225, on the part of
the scene it reads and writes: `s.Objects` and the matrices of the objects. -/
def flatten {Mat : Type} (multiplyMatrix : Mat → Mat → Mat)
    (order : List (String × ObjectRef) → List (String × ObjectRef))
    (s : Objects × (Nat → Mat)) : List (String × ObjectRef) × (Nat → Mat) :=
  flattenSceneObjects multiplyMatrix order s.1 s.2

/-! ## Notions used to state the properties -/

/-- Every object of a hierarchy: the concatenation of the names along its path
from the root, the pointer to it, and the addresses of its ancestors from its
parent up to the top-level object. -/
def Objects.flattened : Objects → List (String × ObjectRef × List Nat)
  | .nil => []
  | .cons k addr children rest =>
    (k, ⟨addr, children⟩, []) ::
      (children.flattened.map (fun e => (k ++ e.1, e.2.1, e.2.2 ++ [addr]))
        ++ rest.flattened)

/-- The matrix of the object at `own` multiplied successively by the matrix of
each ancestor: `own x parent x ... x root`. -/
def successiveProduct {Mat : Type} (multiplyMatrix : Mat → Mat → Mat) (matrix : Nat → Mat)
    (own : Nat) (ancestors : List Nat) : Mat :=
  ancestors.foldl (fun acc a => multiplyMatrix acc (matrix a)) (matrix own)


/-- The property of a call record that the nesting bound states: the nested
call received the depth of its caller plus one, and its caller ran at a depth
from `d` on and below `MaxReflectionDepth`. -/
def edgeOk (cfg : Config) (d : Int) (e : CallEdge) : Prop :=
  e.2 = e.1 + 1 ∧ d ≤ e.1 ∧ e.1 < cfg.MaxReflectionDepth

/-- The component-wise sum of a list of vectors. -/
def sumVectors (l : List Vector) : Vector := l.foldl addVector Vector.zero

/-- A channel value in the range [0,1]. -/
def unitRange (c : F64) : Prop := 0 ≤ c ∧ c ≤ 1

/-- The first three channels of a color lie in [0,1]. -/
def unitColor (v : Vector) : Prop := unitRange v.c0 ∧ unitRange v.c1 ∧ unitRange v.c2

/-- Whether the shadow ray of one sample of a directional light is accepted as
unoccluded for the hit `i` on triangle `t`: the test of `light.go`, line 35,
holds and the same-side test of line 36 does not reject it. -/
def sampleAccepted (x : Externals) (scene : Scene) (i : IntersectionTriangle) (t : Triangle)
    (lightD sample : Vector) : Prop :=
  ((∃ st, (directionalShadowRay x scene i lightD sample).Triangle = some st ∧ st.id = t.id) ∨
    (directionalShadowRay x scene i lightD sample).Dist < x.DIFF) ∧
  x.sameSideTest i.IntersectionNormal
    (directionalShadowRay x scene i lightD sample).IntersectionNormal 0 = true

/-- The wrapped texture coordinates `(s[0], s[1])` that `getColor` has after
line 278 of `triangle.go`, from the interpolated coordinates `s` of line
255. -/
def wrappedCoordinates (s : Vector) : F64 × F64 :=
  (dropInteger (wrapCoordinate s.c0), dropInteger (1 - wrapCoordinate s.c1))

/-- The pixel position `(pixelX, pixelY)` that `getColor` passes to `img.At`:
`triangle.go`, lines 280 and 281. -/
def texturePixel (img : Image) (s : Vector) : Int × Int :=
  (F64.toInt (F64.ofInt img.MaxX * (wrappedCoordinates s).1),
   F64.toInt (F64.ofInt img.MaxY * (wrappedCoordinates s).2))

/-- The color `getColor` makes of the pixel at a position: `triangle.go`, lines
282 to 290. -/
def pixelColor (img : Image) (p : Int × Int) : Vector :=
  ⟨F64.ofNat ((img.At p.1 p.2).1 >>> 8) / F64.fin 255,
   F64.ofNat ((img.At p.1 p.2).2.1 >>> 8) / F64.fin 255,
   F64.ofNat ((img.At p.1 p.2).2.2.1 >>> 8) / F64.fin 255,
   F64.ofNat ((img.At p.1 p.2).2.2.2 >>> 8) / F64.fin 255⟩

/-! ## An example world -/

/-- An example of the external functions: a world in which every ray strikes
`hit`.  Lengths are measured in the taxicab norm, which agrees with the
Euclidean one on the axis-parallel vectors of the examples. -/
def exampleExternals (hit : IntersectionTriangle) : Externals where
  DIFF := F64.fin (1 / 1000)
  dot a b := a.c0 * b.c0 + a.c1 * b.c1 + a.c2 * b.c2
  normalizeVector v :=
    scaleVector v (1 / (F64.abs v.c0 + F64.abs v.c1 + F64.abs v.c2))
  vectorDistance a b :=
    F64.abs (a.c0 - b.c0) + F64.abs (a.c1 - b.c1) + F64.abs (a.c2 - b.c2)
  sameSideTest a b shift := F64.ble shift (a.c0 * b.c0 + a.c1 * b.c1 + a.c2 * b.c2)
  reflectVector dir _ := dir
  refractVector dir _ _ := dir
  sampleSphere radius count := List.replicate count.toNat ⟨radius, 0, 0, 0⟩
  createSamples normal count _ := List.replicate count.toNat normal
  barycentricCoordinates _ _ _ _ :=
    (F64.fin (1 / 3), F64.fin (1 / 3), F64.fin (1 / 3), true)
  raycastSceneIntersect _ _ _ := hit
  ambientSampling _ _ := []
  ambientLightCalc _ _ _ _ := 0
  ambientColor _ _ _ _ := Vector.zero

/-- An example hit: the point `(0,0,0)` of triangle 7 with the given material
and the normal `(0,0,1)`, reached at distance 1 by a ray going straight
down. -/
def exampleHit (m : Material) : IntersectionTriangle where
  Hit := true
  Triangle := some { id := 7, Material := m }
  Intersection := ⟨0, 0, 0, 1⟩
  IntersectionNormal := ⟨0, 0, 1, 0⟩
  RayStart := ⟨0, 0, 1, 1⟩
  RayDir := ⟨0, 0, F64.fin (-1), 0⟩
  Dist := 1

/-- A white diffuse material. -/
def whiteDiffuse : Material where
  Color := ⟨1, 1, 1, 1⟩

/-- A white material that is half glossy and slightly rough (roughness 0.05). -/
def roughGlossy : Material where
  Color := ⟨1, 1, 1, 1⟩
  Glossiness := F64.fin (1 / 2)
  Roughness := F64.fin (1 / 20)

/-- A white material that is half transmissive and slightly rough (roughness
0.05). -/
def roughGlass : Material where
  Color := ⟨1, 1, 1, 1⟩
  Transmission := F64.fin (1 / 2)
  Roughness := F64.fin (1 / 20)

/-- A perfect mirror that is fully transmissive as well. -/
def mirrorGlass : Material where
  Color := ⟨1, 1, 1, 1⟩
  Glossiness := 1
  Transmission := 1

/-- A white light emitter of strength 1. -/
def whiteEmitter : Material where
  Color := ⟨1, 1, 1, 1⟩
  Light := true
  LightStrength := 1

/-- A white point light of strength 8, two units above the example hit. -/
def pointLightAbove : Light where
  Position := ⟨0, 0, F64.fin 2, 1⟩
  Color := ⟨1, 1, 1, 1⟩
  Active := true
  LightStrength := F64.fin 8

/-- A white directional light of strength 1 shining straight down. -/
def sunLight : Light where
  Direction := ⟨0, 0, F64.fin (-1), 0⟩
  Color := ⟨1, 1, 1, 1⟩
  Active := true
  Directional := true
  LightStrength := 1

/-- A hit on another triangle, number 8, half way along the ray: an occluder. -/
def occluderHit : IntersectionTriangle where
  Hit := true
  Triangle := some { id := 8, Material := whiteDiffuse }
  Intersection := ⟨0, 0, F64.fin (1 / 2), 1⟩
  IntersectionNormal := ⟨0, 0, 1, 0⟩
  Dist := F64.fin (1 / 2)

/-- The example world with every second shadow sample occluded:
`sampleSphere` alternates between the points `(radius,0,0)` and
`(-radius,0,0)`, and a ray that starts at a negative first coordinate hits the
occluder, every other ray the given hit. -/
def halfShadedExternals (hit : IntersectionTriangle) : Externals :=
  { exampleExternals hit with
    sampleSphere := fun radius count =>
      (List.range count.toNat).map
        (fun k => if k % 2 = 0 then ⟨radius, 0, 0, 0⟩ else ⟨-radius, 0, 0, 0⟩)
    raycastSceneIntersect := fun _ rayStart _ =>
      if rayStart.c0 < 0 then occluderHit else hit }

/-- A 4 by 2 checkerboard image. -/
def checkerImage : Image where
  MaxX := 4
  MaxY := 2
  At px py := if (px + py) % 2 = 0 then (65535, 65535, 65535, 65535) else (0, 0, 0, 65535)

/-- A scene whose texture map holds the checkerboard under the name
`checker`. -/
def checkerScene : Scene where
  ImageMap name := if name = "checker" then some checkerImage else none

/-- A hit on a triangle textured with `checker`, whose texture coordinates
interpolate in the example world to `(-3/2, 1)`. -/
def texturedHit : IntersectionTriangle where
  Hit := true
  Triangle := some
    { id := 7
      T1 := ⟨F64.fin (-9 / 2), F64.fin 3, 0, 0⟩
      Material := { Color := ⟨1, 1, 1, 1⟩, Texture := "checker" } }
  Intersection := ⟨0, 0, 0, 1⟩
  IntersectionNormal := ⟨0, 0, 1, 0⟩
  RayStart := ⟨0, 0, 1, 1⟩
  RayDir := ⟨0, 0, F64.fin (-1), 0⟩
  Dist := 1

/-- An example hierarchy: the object `root` with the child `arm`, which has the
child `hand`, and a second top-level object `lamp`. -/
def exampleHierarchy : Objects :=
  .cons "root" 1 (.cons "arm" 2 (.cons "hand" 3 .nil .nil) .nil) (.cons "lamp" 4 .nil .nil)

/-- A hierarchy with a clash of names: the object `a` with the child `b`, and a
second top-level object `ab`. -/
def clashingHierarchy : Objects :=
  .cons "a" 1 (.cons "b" 2 .nil .nil) (.cons "ab" 3 .nil .nil)

/-- The same hierarchy with its top-level map visited in the other order. -/
def clashingHierarchyReversed : Objects :=
  .cons "ab" 3 .nil (.cons "a" 1 (.cons "b" 2 .nil .nil) .nil)

/-- A stand-in for the matrices of the examples: a product is written as the
list of its factors, so that their order shows; the object at address `n` has
the matrix `[n]`. -/
def factorMatrix (n : Nat) : List Nat := [n]

/-- The multiplication of the stand-in matrices. -/
def factorProduct (a b : List Nat) : List Nat := a ++ b

/-! # Properties -/

/-! ## float64 arithmetic -/

namespace F64
theorem zero_eq_fin : (0 : F64) = fin 0 := rfl
theorem one_eq_fin : (1 : F64) = fin 1 := rfl
@[simp] theorem ofNat_eq_fin (n : Nat) : ofNat n = fin n := rfl
@[simp] theorem ofInt_eq_fin (n : Int) : ofInt n = fin n := rfl
@[simp] theorem fin_add_fin (a b : ℚ) : fin a + fin b = fin (a + b) := rfl
@[simp] theorem fin_add_inf (a : ℚ) (s : Bool) : fin a + inf s = inf s := rfl
@[simp] theorem inf_add_fin (a : ℚ) (s : Bool) : inf s + fin a = inf s := rfl
@[simp] theorem nan_add (a : F64) : nan + a = nan := by cases a <;> rfl
@[simp] theorem add_nan (a : F64) : a + nan = nan := by cases a <;> rfl
@[simp] theorem fin_mul_fin (a b : ℚ) : fin a * fin b = fin (a * b) := rfl
@[simp] theorem fin_mul_inf (a : ℚ) (s : Bool) :
    fin a * inf s = if a = 0 then nan else inf (xor s (decide (a < 0))) := rfl
@[simp] theorem inf_mul_fin (a : ℚ) (s : Bool) :
    inf s * fin a = if a = 0 then nan else inf (xor s (decide (a < 0))) := rfl
@[simp] theorem nan_mul (a : F64) : nan * a = nan := by cases a <;> rfl
@[simp] theorem mul_nan (a : F64) : a * nan = nan := by cases a <;> rfl
@[simp] theorem fin_sub_fin (a b : ℚ) : fin a - fin b = fin (a - b) := by
  show add (fin a) (neg (fin b)) = _
  simp [add, neg, sub_eq_add_neg]
@[simp] theorem fin_div_fin (a b : ℚ) :
    fin a / fin b = if b = 0 then (if a = 0 then nan else inf (decide (a < 0))) else fin (a / b) :=
  rfl
@[simp] theorem fin_lt_fin (a b : ℚ) : (fin a < fin b) ↔ a < b := by
  show (blt (fin a) (fin b) = true) ↔ _
  simp [blt]
@[simp] theorem fin_le_fin (a b : ℚ) : (fin a ≤ fin b) ↔ a ≤ b := by
  show (ble (fin a) (fin b) = true) ↔ _
  simp [ble]
@[simp] theorem nan_lt (a : F64) : ¬ (nan < a) := by
  show ¬ (blt nan a = true)
  simp [blt]
@[simp] theorem lt_nan (a : F64) : ¬ (a < nan) := by
  show ¬ (blt a nan = true)
  cases a <;> simp [blt]
@[simp] theorem nan_le (a : F64) : ¬ (nan ≤ a) := by
  show ¬ (ble nan a = true)
  simp [ble]
@[simp] theorem le_nan (a : F64) : ¬ (a ≤ nan) := by
  show ¬ (ble a nan = true)
  cases a <;> simp [ble]
@[simp] theorem feq_fin_fin (a b : ℚ) : feq (fin a) (fin b) = decide (a = b) := rfl
@[simp] theorem floor_fin (a : ℚ) : floor (fin a) = fin (⌊a⌋ : Int) := rfl
@[simp] theorem abs_fin (a : ℚ) : abs (fin a) = fin |a| := rfl
end F64

theorem decide_mul_neg (a b : ℚ) (ha : ¬ a = 0) (hb : ¬ b = 0) :
    decide (a * b < 0) = xor (decide (a < 0)) (decide (b < 0)) := by
  rcases lt_or_gt_of_ne ha with h1 | h1 <;> rcases lt_or_gt_of_ne hb with h2 | h2
  · simp [h1, h2, (mul_pos_of_neg_of_neg h1 h2).le]
  · simp [h1, h2, h2.le, not_lt.mpr h2.le, mul_neg_of_neg_of_pos h1 h2]
  · simp [h1, h2, h1.le, not_lt.mpr h1.le, mul_neg_of_pos_of_neg h1 h2]
  · simp [h1, h2, not_lt.mpr h1.le, not_lt.mpr h2.le, (mul_pos h1 h2).le]

theorem bne_swap (p q : Bool) : (p != q) = (q != p) := by cases p <;> cases q <;> rfl

theorem fadd_comm (a b : F64) : a + b = b + a := by
  show F64.add a b = F64.add b a
  cases a <;> cases b <;> simp [F64.add, add_comm]
  rename_i s r
  by_cases h : s = r
  · simp [h]
  · have : ¬ r = s := fun h2 => h h2.symm
    simp [h, this]

theorem fadd_assoc (a b c : F64) : a + b + c = a + (b + c) := by
  show F64.add (F64.add a b) c = F64.add a (F64.add b c)
  cases a <;> cases b <;> cases c <;> simp [F64.add, add_assoc] <;>
    (split_ifs <;> simp_all [F64.add])

theorem fmul_assoc (a b c : F64) : a * b * c = a * (b * c) := by
  show F64.mul (F64.mul a b) c = F64.mul a (F64.mul b c)
  cases a <;> cases b <;> cases c <;> simp [F64.mul, mul_assoc] <;>
    (split_ifs <;> simp_all [F64.mul, decide_mul_neg]) <;>
    exact bne_swap _ _

theorem fmul_one (a : F64) : a * F64.fin 1 = a := by
  show F64.mul a (F64.fin 1) = a
  cases a <;> simp [F64.mul]
  norm_num

theorem fzero_add (a : F64) : F64.fin 0 + a = a := by
  show F64.add (F64.fin 0) a = a
  cases a <;> simp [F64.add]

theorem fmax_zero_of_not_lt (a : F64) (h : ¬ (a < 0)) : F64.max 0 a = a := by
  have h1 : ¬ (F64.blt a (F64.fin 0) = true) := h
  show F64.max (F64.fin 0) a = a
  cases a with
  | fin q =>
    simp only [F64.blt, decide_eq_true_eq, not_lt] at h1
    simp [F64.max, h1]
  | inf s => cases s <;> simp_all [F64.max, F64.blt]
  | nan => simp [F64.max]

/-- Adding the same value `n` times to zero. -/
theorem iterate_add_eq_mul (y : F64) (n : Nat) :
    Nat.iterate (fun a => a + y) (n + 1) (F64.fin 0) = y * F64.fin ((n + 1 : Nat) : ℚ) := by
  induction n with
  | zero =>
    simp only [Function.iterate_succ, Function.iterate_zero, Function.comp, id]
    rw [fzero_add]
    simp [fmul_one]
  | succ m ih =>
    rw [Function.iterate_succ_apply', ih]
    show F64.add (F64.mul y _) y = F64.mul y _
    cases y with
    | fin q => simp [F64.mul, F64.add]; ring
    | inf s =>
      have h1 : ¬ ((m : ℚ) + 1 = 0) := by positivity
      have h2 : ¬ ((m : ℚ) + 1 + 1 = 0) := by positivity
      have h3 : ¬ ((m : ℚ) + 1 < 0) := by
        have : (0 : ℚ) ≤ (m : ℚ) + 1 := by positivity
        exact not_lt.mpr this
      have h4 : ¬ ((m : ℚ) + 1 + 1 < 0) := by
        have : (0 : ℚ) ≤ (m : ℚ) + 1 + 1 := by positivity
        exact not_lt.mpr this
      simp [F64.mul, F64.add, h1, h2, h3, h4]
    | nan => simp [F64.mul, F64.add]

/-! ## Collecting results -/

theorem gather_nil {α β : Type} (f : α → Except Fault β) : gather f [] = .ok [] := rfl

theorem gather_cons {α β : Type} (f : α → Except Fault β) (a : α) (l : List α) :
    gather f (a :: l) = match f a with
      | .error e => .error e
      | .ok b => match gather f l with
        | .error e => .error e
        | .ok bs => .ok (b :: bs) := rfl

theorem gather_congr {α β : Type} (f g : α → Except Fault β) (l : List α)
    (h : ∀ a ∈ l, f a = g a) : gather f l = gather g l := by
  induction l with
  | nil => rfl
  | cons a rest ih =>
    rw [gather_cons, gather_cons, h a (List.mem_cons_self a rest),
      ih (fun b hb => h b (List.mem_cons_of_mem a hb))]

/-- A fan-out whose nested calls all return within their budget returns within
its budget, and the call records it returns are those of its nested calls. -/
theorem fanOut_calls (P : CallEdge → Prop) (nested : IntersectionTriangle → Int → Shaded)
    (target : Vector → IntersectionTriangle) (depth : Int)
    (hn : ∀ tgt, nested tgt (depth + 1) ≠ .error .outOfFuel ∧
      ∀ r, nested tgt (depth + 1) = .ok r → ∀ e ∈ r.2, P e)
    (hP : P (depth, depth + 1)) (dirs : List Vector) :
    fanOut nested target dirs depth ≠ .error .outOfFuel ∧
    ∀ rs, fanOut nested target dirs depth = .ok rs →
      ∀ e ∈ (rs.map Prod.snd).flatten, P e := by
  unfold fanOut spawnArguments
  induction dirs with
  | nil =>
    refine ⟨by simp [gather_nil], fun rs h e he => ?_⟩
    simp [gather_nil] at h
    subst h
    simp at he
  | cons d rest ih =>
    simp only [List.map_cons, gather_cons]
    obtain ⟨h1, h2⟩ := hn (target d)
    generalize hg : gather _ (List.map _ rest) = g at ih ⊢
    rcases hr : nested (target d) (depth + 1) with err | r
    · have herr : err ≠ .outOfFuel := fun hc => h1 (by rw [hr, hc])
      simp [herr]
    · rcases g with err | bs
      · have herr : err ≠ .outOfFuel := fun hc => ih.1 (by rw [hc])
        simp [herr]
      · refine ⟨by simp, fun rs h e he => ?_⟩
        simp only [Except.ok.injEq] at h
        subst h
        simp only [List.map_cons, List.flatten_cons, List.mem_append, List.mem_cons] at he
        rcases he with (he | he) | he
        · rw [he]; exact hP
        · exact h2 r hr e he
        · exact ih.2 bs rfl e he

theorem renderBody_calls (x : Externals) (cfg : Config) (scene : Scene)
    (nested : IntersectionTriangle → Int → Shaded) (i : IntersectionTriangle) (depth : Int)
    (hn : depth < cfg.MaxReflectionDepth →
      ∀ tgt, nested tgt (depth + 1) ≠ .error .outOfFuel ∧
        ∀ r, nested tgt (depth + 1) = .ok r → ∀ e ∈ r.2, edgeOk cfg (depth + 1) e) :
    renderBody x cfg scene nested i depth ≠ .error .outOfFuel ∧
    ∀ r, renderBody x cfg scene nested i depth = .ok r → ∀ e ∈ r.2, edgeOk cfg depth e := by
  unfold renderBody
  by_cases hHit : i.Hit = false
  · simp [hHit]
  by_cases hd : depth ≥ cfg.MaxReflectionDepth
  · simp [hHit, hd]
  rw [if_neg hHit, if_neg hd]
  have hlt : depth < cfg.MaxReflectionDepth := not_le.mp hd
  have hn2 : ∀ tgt, nested tgt (depth + 1) ≠ .error .outOfFuel ∧
      ∀ r, nested tgt (depth + 1) = .ok r → ∀ e ∈ r.2, edgeOk cfg depth e := by
    intro tgt
    obtain ⟨h1, h2⟩ := hn hlt tgt
    refine ⟨h1, fun r hr e he => ?_⟩
    obtain ⟨a, b, c⟩ := h2 r hr e he
    exact ⟨a, by omega, c⟩
  have hP : edgeOk cfg depth (depth, depth + 1) := ⟨rfl, le_refl _, hlt⟩
  rcases surfaceColor x cfg scene i depth with _ | color
  · simp
  rcases i.Triangle with _ | t
  · simp
  dsimp only
  obtain ⟨a1, a2⟩ := fanOut_calls (edgeOk cfg depth) nested (reflectionTarget x scene i) depth
    hn2 hP (sampleDirs x i t.Material)
  obtain ⟨b1, b2⟩ := fanOut_calls (edgeOk cfg depth) nested (refractionTarget x scene i t) depth
    hn2 hP (sampleDirs x i t.Material)
  generalize fanOut nested (reflectionTarget x scene i) (sampleDirs x i t.Material) depth = A
    at a1 a2 ⊢
  generalize fanOut nested (refractionTarget x scene i t) (sampleDirs x i t.Material) depth = B
    at b1 b2 ⊢
  have ha : ∀ err, A = .error err → err ≠ .outOfFuel := fun err h hc => a1 (by rw [h, hc])
  have hb : ∀ err, B = .error err → err ≠ .outOfFuel := fun err h hc => b1 (by rw [h, hc])
  by_cases hg : 0 < t.Material.Glossiness <;> by_cases htr : 0 < t.Material.Transmission
  · simp only [if_pos hg, if_pos htr]
    rcases A with err | rs
    · simp [ha err rfl]
    rcases B with err | rs2
    · simp [hb err rfl]
    refine ⟨by simp, fun r hr e he => ?_⟩
    simp only [Except.ok.injEq] at hr
    subst hr
    simp only [List.mem_append] at he
    rcases he with he | he
    · exact a2 rs rfl e he
    · exact b2 rs2 rfl e he
  · simp only [if_pos hg, if_neg htr]
    rcases A with err | rs
    · simp [ha err rfl]
    refine ⟨by simp, fun r hr e he => ?_⟩
    simp only [Except.ok.injEq] at hr
    subst hr
    exact a2 rs rfl e he
  · simp only [if_neg hg, if_pos htr]
    rcases B with err | rs2
    · simp [hb err rfl]
    refine ⟨by simp, fun r hr e he => ?_⟩
    simp only [Except.ok.injEq] at hr
    subst hr
    simp only [List.nil_append] at he
    exact b2 rs2 rfl e he
  · simp only [if_neg hg, if_neg htr]
    refine ⟨by simp, fun r hr e he => ?_⟩
    simp only [Except.ok.injEq] at hr
    subst hr
    simp at he

theorem renderCalls_within_fuel (x : Externals) (cfg : Config) (scene : Scene) :
    ∀ (fuel : Nat) (i : IntersectionTriangle) (depth : Int),
      (cfg.MaxReflectionDepth - depth).toNat < fuel →
      renderCalls x cfg scene fuel i depth ≠ .error .outOfFuel ∧
      ∀ r, renderCalls x cfg scene fuel i depth = .ok r → ∀ e ∈ r.2, edgeOk cfg depth e := by
  intro fuel
  induction fuel with
  | zero => intro i depth h; omega
  | succ n ih =>
    intro i depth h
    show renderBody x cfg scene (renderCalls x cfg scene n) i depth ≠ _ ∧ _
    apply renderBody_calls
    intro hlt tgt
    exact ih tgt (depth + 1) (by omega)

/-! ## The light functions return -/

theorem F64.not_lt_of_le {a b : F64} (h : a ≤ b) : ¬ (b < a) := by
  have h1 : F64.ble a b = true := h
  show ¬ (F64.blt b a = true)
  cases a <;> cases b <;> simp_all [F64.ble, F64.blt]
  rename_i s r
  cases s <;> cases r <;> simp_all

theorem sameTriangle_of_some (s i : IntersectionTriangle) (t : Triangle)
    (ht : i.Triangle = some t) :
    sameTriangle s i = some (match s.Triangle with
      | none => false
      | some st => decide (st.id = t.id)) := by
  unfold sameTriangle
  cases s.Triangle <;> simp [ht]

theorem directionalLoop_isSome (x : Externals) (cfg : Config) (scene : Scene)
    (i : IntersectionTriangle) (t : Triangle) (ht : i.Triangle = some t) (light : Light)
    (lightD : Vector) (dotP : F64) (samples : List Vector) :
    ∀ (acc : Vector) (hits : F64),
      ∃ r, directionalLoop x cfg scene i light lightD dotP samples acc hits = some r := by
  induction samples with
  | nil => intro acc hits; exact ⟨_, rfl⟩
  | cons s rest ih =>
    intro acc hits
    simp only [directionalLoop, sameTriangle_of_some _ i t ht]
    split_ifs
    · exact ⟨_, rfl⟩
    · exact ih _ _
    · exact ih _ _

theorem calculateDirectionalLight_isSome (x : Externals) (cfg : Config) (scene : Scene)
    (i : IntersectionTriangle) (t : Triangle) (ht : i.Triangle = some t) (light : Light)
    (depth : Int) : ∃ v, calculateDirectionalLight x cfg scene i light depth = some v := by
  unfold calculateDirectionalLight
  dsimp only
  split_ifs
  · exact ⟨_, rfl⟩
  · exact ⟨_, rfl⟩
  · obtain ⟨r, hr⟩ := directionalLoop_isSome x cfg scene i t ht light
      (scaleVector light.Direction (F64.fin (-1)))
      (x.dot i.IntersectionNormal (scaleVector light.Direction (F64.fin (-1))))
      (x.sampleSphere (F64.fin (1 / 5)) cfg.LightSampleCount) Vector.zero 0
    simp only [hr]
    rcases r with _ | ⟨tl, th⟩
    · exact ⟨_, rfl⟩
    · simp only
      split_ifs <;> exact ⟨_, rfl⟩

theorem calculateLight_isSome (x : Externals) (cfg : Config) (scene : Scene)
    (i : IntersectionTriangle) (t : Triangle) (ht : i.Triangle = some t) (light : Light)
    (depth : Int) : ∃ v, calculateLight x cfg scene i light depth = some v := by
  unfold calculateLight
  simp only [ht, sameTriangle_of_some _ i t ht]
  split_ifs <;> exact ⟨_, rfl⟩

theorem lightContribution_isSome (x : Externals) (cfg : Config) (scene : Scene)
    (i : IntersectionTriangle) (t : Triangle) (ht : i.Triangle = some t) (depth : Int)
    (light : Light) : ∃ v, lightContribution x cfg scene i depth light = some v := by
  unfold lightContribution
  split_ifs
  · exact calculateDirectionalLight_isSome x cfg scene i t ht light depth
  · obtain ⟨v, hv⟩ := calculateLight_isSome x cfg scene i t ht light depth
    simp [hv]

theorem collect_eq_map {α β : Type} (f : α → Option β) (g : α → β) (l : List α)
    (h : ∀ a ∈ l, f a = some (g a)) : collect f l = some (l.map g) := by
  induction l with
  | nil => rfl
  | cons a rest ih =>
    have h1 := h a (List.mem_cons_self a rest)
    have h2 := ih (fun b hb => h b (List.mem_cons_of_mem a hb))
    simp [collect, h1, h2]

/-- The contribution of one light when the shaded triangle pointer is not nil. -/
theorem lightContribution_eq_getD (x : Externals) (cfg : Config) (scene : Scene)
    (i : IntersectionTriangle) (t : Triangle) (ht : i.Triangle = some t) (depth : Int)
    (light : Light) :
    lightContribution x cfg scene i depth light
      = some ((lightContribution x cfg scene i depth light).getD Vector.zero) := by
  obtain ⟨v, hv⟩ := lightContribution_isSome x cfg scene i t ht depth light
  simp [hv]

theorem calculateTotalLightRecv_isSome (x : Externals) (cfg : Config) (scene : Scene)
    (i : IntersectionTriangle) (t : Triangle) (ht : i.Triangle = some t) (depth : Int)
    (arrival : List Light) :
    ∃ v, calculateTotalLightRecv x cfg scene i depth arrival = some v := by
  unfold calculateTotalLightRecv
  simp only [ht]
  split_ifs
  · exact ⟨_, rfl⟩
  · exact ⟨_, rfl⟩
  · rw [collect_eq_map _ _ arrival
      (fun l _ => lightContribution_eq_getD x cfg scene i t ht depth l)]
    exact ⟨_, rfl⟩

theorem getColor_isSome (x : Externals) (cfg : Config) (scene : Scene)
    (i : IntersectionTriangle) (t : Triangle) (ht : i.Triangle = some t) (depth : Int) :
    ∃ v, getColor x cfg scene i depth = some v := by
  unfold getColor getTexCoords
  simp only [ht]
  split_ifs
  · exact ⟨_, rfl⟩
  · exact ⟨_, rfl⟩
  · split <;> exact ⟨_, rfl⟩
  · exact ⟨_, rfl⟩


/-! ## The recursion of render -/

theorem fanOut_congr (n1 n2 : IntersectionTriangle → Int → Shaded)
    (target : Vector → IntersectionTriangle) (dirs : List Vector) (depth : Int)
    (h : ∀ tgt, n1 tgt (depth + 1) = n2 tgt (depth + 1)) :
    fanOut n1 target dirs depth = fanOut n2 target dirs depth := by
  unfold fanOut spawnArguments
  apply gather_congr
  intro a ha
  obtain ⟨d, _, rfl⟩ := List.mem_map.mp ha
  simp only [h]

theorem renderBody_congr (x : Externals) (cfg : Config) (scene : Scene)
    (n1 n2 : IntersectionTriangle → Int → Shaded) (i : IntersectionTriangle) (depth : Int)
    (h : depth < cfg.MaxReflectionDepth → ∀ tgt, n1 tgt (depth + 1) = n2 tgt (depth + 1)) :
    renderBody x cfg scene n1 i depth = renderBody x cfg scene n2 i depth := by
  unfold renderBody
  by_cases hHit : i.Hit = false
  · simp [hHit]
  by_cases hd : depth ≥ cfg.MaxReflectionDepth
  · simp [hHit, hd]
  rw [if_neg hHit, if_neg hd, if_neg hHit, if_neg hd]
  have h2 := h (not_le.mp hd)
  simp only [fanOut_congr n1 n2 _ _ depth h2]

/-- Once the budget exceeds the remaining depth, a larger budget gives the same
result. -/
theorem renderCalls_fuel_stable (x : Externals) (cfg : Config) (scene : Scene) :
    ∀ (fuel : Nat) (i : IntersectionTriangle) (depth : Int),
      (cfg.MaxReflectionDepth - depth).toNat < fuel →
      renderCalls x cfg scene (fuel + 1) i depth = renderCalls x cfg scene fuel i depth := by
  intro fuel
  induction fuel with
  | zero => intro i depth h; omega
  | succ n ih =>
    intro i depth h
    show renderBody x cfg scene (renderCalls x cfg scene (n + 1)) i depth
      = renderBody x cfg scene (renderCalls x cfg scene n) i depth
    apply renderBody_congr
    intro hlt tgt
    exact ih tgt (depth + 1) (by omega)

theorem renderCalls_fuel_irrelevant (x : Externals) (cfg : Config) (scene : Scene)
    (i : IntersectionTriangle) (depth : Int) (k : Nat) :
    renderCalls x cfg scene ((cfg.MaxReflectionDepth - depth).toNat + 1 + k) i depth
      = renderCalls x cfg scene ((cfg.MaxReflectionDepth - depth).toNat + 1) i depth := by
  induction k with
  | zero => rfl
  | succ m ih =>
    rw [← ih]
    exact renderCalls_fuel_stable x cfg scene
      ((cfg.MaxReflectionDepth - depth).toNat + 1 + m) i depth (by omega)


theorem renderCalls_diffuse (x : Externals) (cfg : Config) (scene : Scene) (fuel : Nat)
    (i : IntersectionTriangle) (t : Triangle) (depth : Int) (color : Vector)
    (hHit : i.Hit = true) (ht : i.Triangle = some t) (hdepth : depth < cfg.MaxReflectionDepth)
    (hg : t.Material.Glossiness ≤ 0) (htr : t.Material.Transmission ≤ 0)
    (hc : surfaceColor x cfg scene i depth = some color) :
    renderCalls x cfg scene (fuel + 1) i depth = .ok (color, []) := by
  rw [renderCalls]
  unfold renderBody
  simp [hHit, ht, not_le.mpr hdepth, F64.not_lt_of_le hg, F64.not_lt_of_le htr, hc]


theorem limitChannel_zero_one : limitChannel (F64.fin 0) 1 = 0 := by
  simp [limitChannel, F64.zero_eq_fin, F64.one_eq_fin]

theorem limitChannel_alpha (d : F64) :
    limitChannel (if d < 0 then 0 else 1) 1 = if d < 0 then 0 else 1 := by
  split_ifs <;> simp [limitChannel, F64.zero_eq_fin, F64.one_eq_fin]

/-! ## Termination and depth of the recursion -/

/-- C1.  `render` terminates, and its recursion is bounded by
`MaxReflectionDepth`.  For every world of external functions, every
configuration, scene, intersection result and depth, a budget above
`MaxReflectionDepth - depth` is never exhausted, and every larger budget gives
the same result.  When the call returns, each nested `render` call made during
it, directly or not, received the depth of its caller plus one, its caller ran
at a depth below `MaxReflectionDepth` (a call at a depth of at least
`MaxReflectionDepth` makes no nested call), and so the depth it received is at
most `MaxReflectionDepth`: whatever the glossiness, transmission and roughness
of the materials. -/
theorem render_terminates_within_depth (x : Externals) (cfg : Config) (scene : Scene)
    (i : IntersectionTriangle) (depth : Int) (fuel : Nat)
    (hfuel : (cfg.MaxReflectionDepth - depth).toNat < fuel) :
    renderCalls x cfg scene fuel i depth ≠ .error .outOfFuel ∧
    render x cfg scene fuel i depth ≠ .error .outOfFuel ∧
    renderCalls x cfg scene fuel i depth
      = renderCalls x cfg scene ((cfg.MaxReflectionDepth - depth).toNat + 1) i depth ∧
    ∀ color calls, renderCalls x cfg scene fuel i depth = .ok (color, calls) →
      ∀ e ∈ calls, e.2 = e.1 + 1 ∧ depth ≤ e.1 ∧ e.1 < cfg.MaxReflectionDepth ∧
        e.2 ≤ cfg.MaxReflectionDepth := by
  obtain ⟨h1, h2⟩ := renderCalls_within_fuel x cfg scene fuel i depth hfuel
  refine ⟨h1, ?_, ?_, ?_⟩
  · unfold render
    rcases hr : renderCalls x cfg scene fuel i depth with err | r
    · intro hc
      simp only [Except.error.injEq] at hc
      exact h1 (by rw [hr, hc])
    · simp
  · obtain ⟨k, hk⟩ : ∃ k, fuel = (cfg.MaxReflectionDepth - depth).toNat + 1 + k :=
      ⟨fuel - ((cfg.MaxReflectionDepth - depth).toNat + 1), by omega⟩
    rw [hk]
    exact renderCalls_fuel_irrelevant x cfg scene i depth k
  · intro color calls hr e he
    obtain ⟨a, b, c⟩ := h2 (color, calls) hr e he
    exact ⟨a, b, c, by omega⟩

/-- Witness for C1: a fully mirrored, fully transmissive triangle facing an
identical one, with `MaxReflectionDepth = 2`, shaded from depth 0. -/
theorem render_terminates_within_depth_witness :
    renderCalls (exampleExternals (exampleHit mirrorGlass)) { MaxReflectionDepth := 2 } {} 3
        (exampleHit mirrorGlass) 0 ≠ .error .outOfFuel ∧
    render (exampleExternals (exampleHit mirrorGlass)) { MaxReflectionDepth := 2 } {} 3
        (exampleHit mirrorGlass) 0 ≠ .error .outOfFuel ∧
    renderCalls (exampleExternals (exampleHit mirrorGlass)) { MaxReflectionDepth := 2 } {} 3
        (exampleHit mirrorGlass) 0
      = renderCalls (exampleExternals (exampleHit mirrorGlass)) { MaxReflectionDepth := 2 } {}
          (((2 : Int) - 0).toNat + 1) (exampleHit mirrorGlass) 0 ∧
    ∀ color calls,
      renderCalls (exampleExternals (exampleHit mirrorGlass)) { MaxReflectionDepth := 2 } {} 3
        (exampleHit mirrorGlass) 0 = .ok (color, calls) →
      ∀ e ∈ calls, e.2 = e.1 + 1 ∧ (0 : Int) ≤ e.1 ∧ e.1 < 2 ∧ e.2 ≤ 2 :=
  render_terminates_within_depth (exampleExternals (exampleHit mirrorGlass))
    { MaxReflectionDepth := 2 } {} (exampleHit mirrorGlass) 0 3 (by decide)

/-- The scenario of a fully mirrored, fully transmissive triangle facing an
identical one, with `MaxReflectionDepth = 2`: the call at depth 0 makes two
nested calls at depth 1, each of which makes two at depth 2, which return at
once. -/
theorem render_mirror_example :
    renderCalls (exampleExternals (exampleHit mirrorGlass)) { MaxReflectionDepth := 2 } {} 3
        (exampleHit mirrorGlass) 0
      = .ok (⟨F64.fin 0, F64.fin 0, F64.fin 0, F64.fin 1⟩,
          [(0, 1), (1, 2), (1, 2), (0, 1), (1, 2), (1, 2)]) := by
  simp [renderCalls, renderBody, surfaceColor, getColor, exampleHit, exampleExternals,
    mirrorGlass, fanOut, spawnArguments, gather_nil, gather_cons, averageColor, blendColor,
    reflectionTarget, refractionTarget,
    scaleVector, addVector, limitVector, limitChannel, Vector.zero, sampleDirs,
    F64.zero_eq_fin, F64.one_eq_fin]

/-! ## Range of the returned color -/

theorem unitRange_iff (c : F64) : unitRange c ↔ ∃ q : ℚ, c = F64.fin q ∧ 0 ≤ q ∧ q ≤ 1 := by
  unfold unitRange
  constructor
  · rintro ⟨h0, h1⟩
    have h0b : F64.ble (F64.fin 0) c = true := h0
    have h1b : F64.ble c (F64.fin 1) = true := h1
    cases c with
    | fin q =>
      simp only [F64.ble, decide_eq_true_eq] at h0b h1b
      exact ⟨q, rfl, h0b, h1b⟩
    | inf s => cases s <;> simp [F64.ble] at h0b h1b
    | nan => simp [F64.ble] at h0b
  · rintro ⟨q, rfl, h0, h1⟩
    exact ⟨by simp [F64.zero_eq_fin, h0], by simp [F64.one_eq_fin, h1]⟩

theorem unitRange_zero : unitRange 0 := by
  rw [unitRange_iff]
  exact ⟨0, rfl, le_refl _, zero_le_one⟩

theorem unitColor_zero : unitColor Vector.zero := ⟨unitRange_zero, unitRange_zero, unitRange_zero⟩

/-- The clamp of a value that is not NaN lies in [0,1]. -/
theorem limitChannel_unit (c : F64) (h : c ≠ F64.nan) : unitRange (limitChannel c 1) := by
  rw [unitRange_iff]
  unfold limitChannel
  cases c with
  | fin q =>
    simp only [F64.one_eq_fin, F64.zero_eq_fin, F64.fin_lt_fin]
    split_ifs with h1 h2
    · exact ⟨1, rfl, zero_le_one, le_refl _⟩
    · exact ⟨0, rfl, le_refl _, zero_le_one⟩
    · exact ⟨q, rfl, not_lt.mp h2, not_lt.mp h1⟩
  | inf s =>
    cases s
    · have : (1 : F64) < F64.inf false := by
        show F64.blt (F64.fin 1) (F64.inf false) = true
        rfl
      simp only [this, if_true]
      exact ⟨1, rfl, zero_le_one, le_refl _⟩
    · have h1 : ¬ ((1 : F64) < F64.inf true) := by
        show ¬ (F64.blt (F64.fin 1) (F64.inf true) = true)
        simp [F64.blt]
      have h2 : F64.inf true < (0 : F64) := by
        show F64.blt (F64.inf true) (F64.fin 0) = true
        rfl
      simp only [h1, h2, if_true, if_false]
      exact ⟨0, rfl, le_refl _, zero_le_one⟩
  | nan => exact absurd rfl h

/-- The linear blend of two values of [0,1] by a factor of [0,1] lies in
[0,1]. -/
theorem blend_unit (a b k : F64) (ha : unitRange a) (hb : unitRange b) (hk : unitRange k) :
    unitRange (a * (1 - k) + b * k) := by
  rw [unitRange_iff] at ha hb hk ⊢
  obtain ⟨qa, rfl, ha0, ha1⟩ := ha
  obtain ⟨qb, rfl, hb0, hb1⟩ := hb
  obtain ⟨qk, rfl, hk0, hk1⟩ := hk
  refine ⟨qa * (1 - qk) + qb * qk, by simp [F64.one_eq_fin], ?_, ?_⟩
  · have h1 : 0 ≤ qa * (1 - qk) := mul_nonneg ha0 (by linarith)
    have h2 : 0 ≤ qb * qk := mul_nonneg hb0 hk0
    linarith
  · have h1 : qa * (1 - qk) ≤ 1 * (1 - qk) := mul_le_mul_of_nonneg_right ha1 (by linarith)
    have h2 : qb * qk ≤ 1 * qk := mul_le_mul_of_nonneg_right hb1 hk0
    linarith

theorem blendColor_unit (color coll : Vector) (k : F64) (hc : unitColor color)
    (hcoll : unitColor coll) (hk : unitRange k) : unitColor (blendColor color coll k) :=
  ⟨blend_unit _ _ _ hc.1 hcoll.1 hk, blend_unit _ _ _ hc.2.1 hcoll.2.1 hk,
    blend_unit _ _ _ hc.2.2 hcoll.2.2 hk⟩

/-- The factor `transmission * (1 - roughness)` lies in [0,1]. -/
theorem transmission_factor_unit (t r : F64) (ht : unitRange t) (hr : unitRange r) :
    unitRange (t * (1 - r)) := by
  rw [unitRange_iff] at ht hr ⊢
  obtain ⟨qt, rfl, ht0, ht1⟩ := ht
  obtain ⟨qr, rfl, hr0, hr1⟩ := hr
  refine ⟨qt * (1 - qr), by simp [F64.one_eq_fin], mul_nonneg ht0 (by linarith), ?_⟩
  have h1 : qt * (1 - qr) ≤ 1 * (1 - qr) := mul_le_mul_of_nonneg_right ht1 (by linarith)
  linarith

/-- One channel of a sum of colors whose channel lies in [0,1]. -/
theorem foldl_addVector_channel (p : Vector → F64)
    (hp : ∀ a b, p (addVector a b) = p a + p b) (l : List Vector)
    (hl : ∀ v ∈ l, unitRange (p v)) :
    ∀ (acc : Vector) (a : ℚ), p acc = F64.fin a →
      ∃ s : ℚ, p (l.foldl addVector acc) = F64.fin (a + s) ∧ 0 ≤ s ∧ s ≤ l.length := by
  induction l with
  | nil =>
    intro acc a h
    exact ⟨0, by simp [h], le_refl _, by simp⟩
  | cons v rest ih =>
    intro acc a h
    obtain ⟨q, hq, hq0, hq1⟩ := (unitRange_iff _).mp (hl v (List.mem_cons_self v rest))
    obtain ⟨s, hs, hs0, hs1⟩ := ih (fun w hw => hl w (List.mem_cons_of_mem v hw))
      (addVector acc v) (a + q) (by rw [hp, h, hq]; rfl)
    refine ⟨q + s, ?_, by linarith, ?_⟩
    · simp only [List.foldl_cons]
      rw [hs]
      congr 1
      ring
    · simp only [List.length_cons, Nat.cast_add, Nat.cast_one]
      linarith

theorem average_channel_unit (p : Vector → F64)
    (hp : ∀ a b, p (addVector a b) = p a + p b) (hz : p Vector.zero = F64.fin 0)
    (hs : ∀ a k, p (scaleVector a k) = p a * k) (l : List Vector)
    (hl : ∀ v ∈ l, unitRange (p v)) (hne : l ≠ []) :
    unitRange (p (averageColor l l.length)) := by
  obtain ⟨s, hsum, hs0, hs1⟩ := foldl_addVector_channel p hp l hl Vector.zero 0 hz
  have hlen : (0 : ℚ) < (l.length : ℚ) := by
    have : 0 < l.length := List.length_pos.mpr hne
    exact_mod_cast this
  rw [unitRange_iff]
  refine ⟨s * (1 / (l.length : ℚ)), ?_, ?_, ?_⟩
  · unfold averageColor
    rw [hs, hsum]
    simp [F64.one_eq_fin, ne_of_gt hlen]
  · exact mul_nonneg hs0 (by positivity)
  · rw [mul_one_div, div_le_one hlen]
    exact hs1

/-- The average of at least one color with channels in [0,1] has its channels
in [0,1]. -/
theorem averageColor_unit (l : List Vector) (hl : ∀ v ∈ l, unitColor v) (hne : l ≠ []) :
    unitColor (averageColor l l.length) :=
  ⟨average_channel_unit Vector.c0 (fun _ _ => rfl) rfl (fun _ _ => rfl) l
      (fun v hv => (hl v hv).1) hne,
   average_channel_unit Vector.c1 (fun _ _ => rfl) rfl (fun _ _ => rfl) l
      (fun v hv => (hl v hv).2.1) hne,
   average_channel_unit Vector.c2 (fun _ _ => rfl) rfl (fun _ _ => rfl) l
      (fun v hv => (hl v hv).2.2) hne⟩

/-- The colors a fan-out collects are those its nested calls return, one per
direction. -/
theorem fanOut_colors (Q : Vector → Prop) (nested : IntersectionTriangle → Int → Shaded)
    (target : Vector → IntersectionTriangle) (depth : Int)
    (hn : ∀ dir r, nested (target dir) (depth + 1) = .ok r → Q r.1) (dirs : List Vector) :
    ∀ rs, fanOut nested target dirs depth = .ok rs →
      rs.length = dirs.length ∧ ∀ v ∈ rs.map Prod.fst, Q v := by
  unfold fanOut spawnArguments
  induction dirs with
  | nil =>
    intro rs h
    simp [gather_nil] at h
    subst h
    simp
  | cons d rest ih =>
    intro rs h
    simp only [List.map_cons, gather_cons] at h
    generalize hg : gather _ (List.map _ rest) = g at ih h
    rcases hr : nested (target d) (depth + 1) with err | r
    · simp [hr] at h
    · rcases g with err | bs
      · simp [hr] at h
      · simp only [hr, Except.ok.injEq] at h
        subst h
        obtain ⟨h1, h2⟩ := ih bs rfl
        refine ⟨by simp [h1], fun v hv => ?_⟩
        simp only [List.map_cons, List.mem_cons] at hv
        rcases hv with hv | hv
        · rw [hv]; exact hn d r hr
        · exact h2 v hv

/-- The color `render` has after the combination step is a clamped vector. -/
theorem surfaceColor_eq_limit (x : Externals) (cfg : Config) (scene : Scene)
    (i : IntersectionTriangle) (depth : Int) (c : Vector)
    (h : surfaceColor x cfg scene i depth = some c) : ∃ w, c = limitVector w 1 := by
  unfold surfaceColor at h
  dsimp only at h
  split at h
  · simp at h
  · split at h
    · simp at h
    · simp only [Option.some.injEq] at h
      exact ⟨_, h.symm⟩

theorem surfaceColor_unit (x : Externals) (cfg : Config) (scene : Scene)
    (i : IntersectionTriangle) (depth : Int) (c : Vector)
    (h : surfaceColor x cfg scene i depth = some c)
    (hnan : c.c0 ≠ F64.nan ∧ c.c1 ≠ F64.nan ∧ c.c2 ≠ F64.nan) : unitColor c := by
  obtain ⟨w, rfl⟩ := surfaceColor_eq_limit x cfg scene i depth c h
  have key : ∀ a : F64, limitChannel a 1 ≠ F64.nan → unitRange (limitChannel a 1) := by
    intro a ha
    apply limitChannel_unit
    rintro rfl
    exact ha (by simp [limitChannel])
  exact ⟨key _ hnan.1, key _ hnan.2.1, key _ hnan.2.2⟩

/-- One step of `render` keeps the range [0,1] when the nested calls do, the
combined color has no NaN channel, the material parameters lie in [0,1] and
the direction list is not empty when a blend is applied. -/
theorem renderBody_unit (x : Externals) (cfg : Config) (scene : Scene)
    (nested : IntersectionTriangle → Int → Shaded) (i : IntersectionTriangle) (depth : Int)
    (hn : ∀ origin dir r,
      nested (x.raycastSceneIntersect scene origin dir) (depth + 1) = .ok r → unitColor r.1)
    (hsurf : ∀ c, surfaceColor x cfg scene i depth = some c →
      c.c0 ≠ F64.nan ∧ c.c1 ≠ F64.nan ∧ c.c2 ≠ F64.nan)
    (hmat : ∀ t, i.Triangle = some t →
      unitRange t.Material.Glossiness ∧ unitRange t.Material.Roughness ∧
        unitRange t.Material.Transmission)
    (hdirs : ∀ t, i.Triangle = some t →
      0 < t.Material.Glossiness ∨ 0 < t.Material.Transmission →
      sampleDirs x i t.Material ≠ []) :
    ∀ r, renderBody x cfg scene nested i depth = .ok r → unitColor r.1 := by
  intro r hr
  unfold renderBody at hr
  by_cases hHit : i.Hit = false
  · simp only [hHit, if_true, Except.ok.injEq] at hr
    subst hr
    exact unitColor_zero
  by_cases hd : depth ≥ cfg.MaxReflectionDepth
  · rw [if_neg hHit, if_pos hd] at hr
    simp only [Except.ok.injEq] at hr
    subst hr
    exact unitColor_zero
  rw [if_neg hHit, if_neg hd] at hr
  rcases hsc : surfaceColor x cfg scene i depth with _ | color
  · simp [hsc] at hr
  rcases htri : i.Triangle with _ | t
  · simp [hsc, htri] at hr
  simp only [hsc, htri] at hr
  have hcolor : unitColor color := surfaceColor_unit x cfg scene i depth color hsc (hsurf color hsc)
  obtain ⟨hG, hR, hT⟩ := hmat t htri
  have hA := fanOut_colors unitColor nested (reflectionTarget x scene i) depth
    (fun dir r h => hn _ _ r h) (sampleDirs x i t.Material)
  have hB := fanOut_colors unitColor nested (refractionTarget x scene i t) depth
    (fun dir r h => hn _ _ r h) (sampleDirs x i t.Material)
  generalize fanOut nested (reflectionTarget x scene i) (sampleDirs x i t.Material) depth = A
    at hA hr
  generalize fanOut nested (refractionTarget x scene i t) (sampleDirs x i t.Material) depth = B
    at hB hr
  have havg : ∀ rs : List (Vector × List CallEdge),
      rs.length = (sampleDirs x i t.Material).length →
      (∀ v ∈ rs.map Prod.fst, unitColor v) →
      0 < t.Material.Glossiness ∨ 0 < t.Material.Transmission →
      unitColor (averageColor (rs.map Prod.fst) (sampleDirs x i t.Material).length) := by
    intro rs hlen hall hpos
    have hne : rs.map Prod.fst ≠ [] := by
      intro hnil
      have h0 : rs.length = 0 := by simpa using congrArg List.length hnil
      exact hdirs t htri hpos (List.length_eq_zero.mp (by rw [← hlen, h0]))
    have := averageColor_unit (rs.map Prod.fst) hall hne
    rwa [List.length_map, hlen] at this
  by_cases hg : 0 < t.Material.Glossiness <;> by_cases htr : 0 < t.Material.Transmission
  · simp only [if_pos hg, if_pos htr] at hr
    rcases A with err | rs
    · simp at hr
    rcases B with err | rs2
    · simp at hr
    simp only [Except.ok.injEq] at hr
    subst hr
    obtain ⟨a1, a2⟩ := hA rs rfl
    obtain ⟨b1, b2⟩ := hB rs2 rfl
    exact blendColor_unit _ _ _
      (blendColor_unit _ _ _ hcolor (havg rs a1 a2 (Or.inl hg)) hG)
      (havg rs2 b1 b2 (Or.inl hg)) (transmission_factor_unit _ _ hT hR)
  · simp only [if_pos hg, if_neg htr] at hr
    rcases A with err | rs
    · simp at hr
    simp only [Except.ok.injEq] at hr
    subst hr
    obtain ⟨a1, a2⟩ := hA rs rfl
    exact blendColor_unit _ _ _ hcolor (havg rs a1 a2 (Or.inl hg)) hG
  · simp only [if_neg hg, if_pos htr] at hr
    rcases B with err | rs2
    · simp at hr
    simp only [Except.ok.injEq] at hr
    subst hr
    obtain ⟨b1, b2⟩ := hB rs2 rfl
    exact blendColor_unit _ _ _ hcolor (havg rs2 b1 b2 (Or.inr htr))
      (transmission_factor_unit _ _ hT hR)
  · simp only [if_neg hg, if_neg htr, Except.ok.injEq] at hr
    subst hr
    exact hcolor

/-- The range of the color `render` returns.  Let `reach` hold of the shaded hit and of every result
of `raycastSceneIntersect`.  If for every such hit the color after the
combination step has no NaN channel, glossiness, roughness and transmission
of its material lie in [0,1], and its direction list is not empty whenever
glossiness or transmission is positive, then the first three channels of
every color `render` returns lie in [0,1]. -/
theorem render_unit_range (x : Externals) (cfg : Config) (scene : Scene)
    (reach : IntersectionTriangle → Prop)
    (hray : ∀ origin dir, reach (x.raycastSceneIntersect scene origin dir))
    (hsurf : ∀ i depth c, reach i → surfaceColor x cfg scene i depth = some c →
      c.c0 ≠ F64.nan ∧ c.c1 ≠ F64.nan ∧ c.c2 ≠ F64.nan)
    (hmat : ∀ i t, reach i → i.Triangle = some t →
      unitRange t.Material.Glossiness ∧ unitRange t.Material.Roughness ∧
        unitRange t.Material.Transmission)
    (hdirs : ∀ i t, reach i → i.Triangle = some t →
      0 < t.Material.Glossiness ∨ 0 < t.Material.Transmission →
      sampleDirs x i t.Material ≠ []) :
    ∀ (fuel : Nat) (i : IntersectionTriangle) (depth : Int) (color : Vector),
      reach i → render x cfg scene fuel i depth = .ok color → unitColor color := by
  have main : ∀ (fuel : Nat) (i : IntersectionTriangle) (depth : Int), reach i →
      ∀ r, renderCalls x cfg scene fuel i depth = .ok r → unitColor r.1 := by
    intro fuel
    induction fuel with
    | zero =>
      intro i depth _ r hr
      simp [renderCalls] at hr
    | succ n ih =>
      intro i depth hi r hr
      have hr2 : renderBody x cfg scene (renderCalls x cfg scene n) i depth = .ok r := hr
      refine renderBody_unit x cfg scene _ i depth ?_ (fun c => hsurf i depth c hi)
        (fun t => hmat i t hi) (fun t => hdirs i t hi) r hr2
      intro origin dir r2 h2
      exact ih _ (depth + 1) (hray origin dir) r2 h2
  intro fuel i depth color hi hr
  unfold render at hr
  rcases h : renderCalls x cfg scene fuel i depth with err | r
  · simp [h] at hr
  · simp only [h, Except.ok.injEq] at hr
    subst hr
    exact main fuel i depth hi r h


/-- An instance of the range property: the fully mirrored, fully transmissive
triangle facing an identical one. -/
theorem render_unit_range_example (fuel : Nat) (depth : Int) (color : Vector)
    (h : render (exampleExternals (exampleHit mirrorGlass))
      { MaxReflectionDepth := 2, RenderColors := true } {} fuel (exampleHit mirrorGlass) depth
      = .ok color) : unitColor color := by
  refine render_unit_range (exampleExternals (exampleHit mirrorGlass))
    { MaxReflectionDepth := 2, RenderColors := true } {}
    (fun i => i = exampleHit mirrorGlass) (fun _ _ => rfl) ?_ ?_ ?_ fuel
    (exampleHit mirrorGlass) depth color rfl h
  · rintro i d c rfl hc
    simp [surfaceColor, getColor, exampleHit, mirrorGlass, limitVector, limitChannel,
      Vector.zero, F64.zero_eq_fin, F64.one_eq_fin] at hc
    norm_num at hc
    subst hc
    simp
  · rintro i t rfl ht
    simp only [exampleHit, Option.some.injEq] at ht
    subst ht
    simp [unitRange, mirrorGlass, F64.zero_eq_fin, F64.one_eq_fin]
  · rintro i t rfl ht _
    simp only [exampleHit, Option.some.injEq] at ht
    subst ht
    simp [sampleDirs, mirrorGlass, F64.zero_eq_fin, F64.one_eq_fin]

/-- C2, evaluated at a failing input: a hit on a half transmissive material of
roughness 0.05 (glossiness 0), all three parameters in [0,1], lit by a point
light.  The direction list is empty, the transmission blend of step 6 mixes in
the average over zero directions, and the first three channels of the color
returned are NaN: they do not lie in [0,1]. -/
theorem render_channels_out_of_range :
    ((0 : F64) ≤ roughGlass.Glossiness ∧ roughGlass.Glossiness ≤ 1) ∧
    ((0 : F64) ≤ roughGlass.Roughness ∧ roughGlass.Roughness ≤ 1) ∧
    ((0 : F64) ≤ roughGlass.Transmission ∧ roughGlass.Transmission ≤ 1) ∧
    ∃ color,
      render (exampleExternals (exampleHit roughGlass))
          { MaxReflectionDepth := 3, RenderColors := true, RenderLights := true,
            Exposure := F64.fin 1 }
          { Lights := [pointLightAbove] } 1 (exampleHit roughGlass) 0 = .ok color ∧
      ¬ ((0 : F64) ≤ color.c0 ∧ color.c0 ≤ 1) ∧
      ¬ ((0 : F64) ≤ color.c1 ∧ color.c1 ≤ 1) ∧
      ¬ ((0 : F64) ≤ color.c2 ∧ color.c2 ≤ 1) := by
  refine ⟨?_, ?_, ?_, ⟨F64.nan, F64.nan, F64.nan, F64.fin 1⟩, ?_, ?_, ?_, ?_⟩
  · simp [roughGlass, F64.zero_eq_fin, F64.one_eq_fin]
  · simp [roughGlass, F64.zero_eq_fin, F64.one_eq_fin]; norm_num
  · simp [roughGlass, F64.zero_eq_fin, F64.one_eq_fin]; norm_num
  · simp [render, renderCalls, renderBody, surfaceColor, getDirectLight,
      calculateTotalLight, calculateTotalLightRecv, collect, lightContribution, calculateLight,
      sameTriangle, causticLight, receiveLight, getColor, exampleHit, exampleExternals,
      roughGlass, pointLightAbove, fanOut, spawnArguments, gather_nil, averageColor,
      blendColor, scaleVector, addVector, subVector, limitVector, limitChannel, Vector.zero,
      F64.ble, F64.toInt, F64.truncQ, sampleDirs, F64.zero_eq_fin, F64.one_eq_fin]
    norm_num
    simp [render, renderCalls, renderBody, surfaceColor, getDirectLight,
      calculateTotalLight, calculateTotalLightRecv, collect, lightContribution, calculateLight,
      sameTriangle, causticLight, receiveLight, getColor, exampleHit, exampleExternals,
      roughGlass, pointLightAbove, fanOut, spawnArguments, gather_nil, averageColor,
      blendColor, scaleVector, addVector, subVector, limitVector, limitChannel, Vector.zero,
      F64.ble, F64.toInt, F64.truncQ, sampleDirs, F64.zero_eq_fin, F64.one_eq_fin]
  · simp
  · simp
  · simp

/-! ## Terminal calls -/

/-- C3.  For every world of external functions, every configuration, scene
and intersection result: whenever `Hit` is false or
`depth >= MaxReflectionDepth`, `render` returns the zero vector `(0,0,0,0)`
and makes no nested call.  The value is the same for every scene and every
choice of the external functions: no light, color or sample enters it. -/
theorem render_terminal (x : Externals) (cfg : Config) (scene : Scene) (fuel : Nat)
    (i : IntersectionTriangle) (depth : Int)
    (h : i.Hit = false ∨ depth ≥ cfg.MaxReflectionDepth) :
    render x cfg scene (fuel + 1) i depth = .ok Vector.zero ∧
    renderCalls x cfg scene (fuel + 1) i depth = .ok (Vector.zero, []) := by
  have h2 : renderCalls x cfg scene (fuel + 1) i depth = .ok (Vector.zero, []) := by
    rw [renderCalls]
    unfold renderBody
    rcases h with h | h
    · simp [h]
    · by_cases hh : i.Hit = false
      · simp [hh]
      · simp [hh, h]
  exact ⟨by simp [render, h2], h2⟩

/-- Witness for C3: a hit shaded at depth 3 with `MaxReflectionDepth = 3`. -/
theorem render_terminal_witness :
    render (exampleExternals (exampleHit mirrorGlass)) { MaxReflectionDepth := 3 } {} (0 + 1)
        (exampleHit mirrorGlass) 3 = .ok Vector.zero ∧
    renderCalls (exampleExternals (exampleHit mirrorGlass)) { MaxReflectionDepth := 3 } {}
        (0 + 1) (exampleHit mirrorGlass) 3 = .ok (Vector.zero, []) :=
  render_terminal (exampleExternals (exampleHit mirrorGlass)) { MaxReflectionDepth := 3 } {} 0
    (exampleHit mirrorGlass) 3 (Or.inr (by decide))

/-! ## Diffuse lit hits -/

/-- C4.  For every hit at a depth below `MaxReflectionDepth` whose material
has glossiness <= 0 and transmission <= 0, with `RenderLights` enabled and
`RenderOcclusion` and `RenderAmbientColors` disabled: `getColor(scene)`
returns a base color `base`, `calculateTotalLight(scene, i, 0)` returns a
light `L`, and `render` returns the per-channel clamp to [0,1] of
`(base[0]*L[0], base[1]*L[1], base[2]*L[2], a)`, where `a` is 0 if the hit
distance `Dist` is negative and 1 otherwise. -/
theorem render_diffuse_lit (x : Externals) (cfg : Config) (scene : Scene)
    (i : IntersectionTriangle) (t : Triangle) (depth : Int)
    (hHit : i.Hit = true) (ht : i.Triangle = some t) (hdepth : depth < cfg.MaxReflectionDepth)
    (hg : t.Material.Glossiness ≤ 0) (htr : t.Material.Transmission ≤ 0)
    (hL : cfg.RenderLights = true) (hO : cfg.RenderOcclusion = false)
    (hA : cfg.RenderAmbientColors = false) :
    ∃ base L, getColor x cfg scene i depth = some base ∧
      calculateTotalLight x cfg scene i 0 = some L ∧
      ∀ fuel, render x cfg scene (fuel + 1) i depth =
        .ok (limitVector ⟨base.c0 * L.c0, base.c1 * L.c1, base.c2 * L.c2,
              if i.Dist < 0 then 0 else 1⟩ 1) := by
  obtain ⟨base, hbase⟩ := getColor_isSome x cfg scene i t ht depth
  obtain ⟨L, hLv⟩ := calculateTotalLightRecv_isSome x cfg scene i t ht 0 scene.Lights
  refine ⟨base, L, hbase, hLv, fun fuel => ?_⟩
  have hc : surfaceColor x cfg scene i depth =
      some (limitVector ⟨base.c0 * L.c0, base.c1 * L.c1, base.c2 * L.c2,
              if i.Dist < 0 then 0 else 1⟩ 1) := by
    have hLv2 : calculateTotalLight x cfg scene i 0 = some L := hLv
    simp [surfaceColor, getDirectLight, hL, hO, hA, hbase, hLv2]
  simp [render, renderCalls_diffuse x cfg scene fuel i t depth _ hHit ht hdepth hg htr hc]

/-- Witness for C4: the white diffuse example hit lit by the point light above
it. -/
theorem render_diffuse_lit_witness :
    ∃ base L,
      getColor (exampleExternals (exampleHit whiteDiffuse))
          { MaxReflectionDepth := 3, RenderColors := true, RenderLights := true,
            Exposure := F64.fin 1 }
          { Lights := [pointLightAbove] } (exampleHit whiteDiffuse) 0 = some base ∧
      calculateTotalLight (exampleExternals (exampleHit whiteDiffuse))
          { MaxReflectionDepth := 3, RenderColors := true, RenderLights := true,
            Exposure := F64.fin 1 }
          { Lights := [pointLightAbove] } (exampleHit whiteDiffuse) 0 = some L ∧
      ∀ fuel,
        render (exampleExternals (exampleHit whiteDiffuse))
            { MaxReflectionDepth := 3, RenderColors := true, RenderLights := true,
              Exposure := F64.fin 1 }
            { Lights := [pointLightAbove] } (fuel + 1) (exampleHit whiteDiffuse) 0 =
          .ok (limitVector ⟨base.c0 * L.c0, base.c1 * L.c1, base.c2 * L.c2,
                if (exampleHit whiteDiffuse).Dist < 0 then 0 else 1⟩ 1) :=
  render_diffuse_lit (exampleExternals (exampleHit whiteDiffuse))
    { MaxReflectionDepth := 3, RenderColors := true, RenderLights := true,
      Exposure := F64.fin 1 }
    { Lights := [pointLightAbove] } (exampleHit whiteDiffuse)
    { id := 7, Material := whiteDiffuse } 0 rfl rfl (by decide)
    (by simp [whiteDiffuse, F64.zero_eq_fin]) (by simp [whiteDiffuse, F64.zero_eq_fin])
    rfl rfl rfl

/-! ## Lighting disabled -/

/-- C5 as stated fails: with lighting, occlusion and ambient colors disabled, a
white diffuse hit is rendered black, `(0,0,0,1)`, although its base color
clamped to [0,1] is `(1,1,1,1)`. -/
theorem render_unlit_counterexample :
    render (exampleExternals (exampleHit whiteDiffuse))
        { MaxReflectionDepth := 3, RenderColors := true } {} 1 (exampleHit whiteDiffuse) 0
      = .ok ⟨0, 0, 0, 1⟩ ∧
    getColor (exampleExternals (exampleHit whiteDiffuse))
        { MaxReflectionDepth := 3, RenderColors := true } {} (exampleHit whiteDiffuse) 0
      = some ⟨1, 1, 1, 1⟩ ∧
    (limitVector ⟨1, 1, 1, 1⟩ 1).c0 ≠ 0 ∧
    (limitVector ⟨1, 1, 1, 1⟩ 1).c1 ≠ 0 ∧
    (limitVector ⟨1, 1, 1, 1⟩ 1).c2 ≠ 0 := by
  refine ⟨?_, ?_, ?_, ?_, ?_⟩
  · simp [render, renderCalls, renderBody, surfaceColor, getColor, exampleHit, whiteDiffuse,
      limitVector, limitChannel, Vector.zero, F64.zero_eq_fin, F64.one_eq_fin]
    norm_num
  · simp [getColor, exampleHit, whiteDiffuse]
  · simp [limitVector, limitChannel, F64.zero_eq_fin, F64.one_eq_fin]
  · simp [limitVector, limitChannel, F64.zero_eq_fin, F64.one_eq_fin]
  · simp [limitVector, limitChannel, F64.zero_eq_fin, F64.one_eq_fin]

/-- C5, amended.  When lighting is disabled (`RenderLights = false`), `render`
uses the zero vector `(0,0,0,0)` as the light: for every hit at a depth below
`MaxReflectionDepth` with `RenderOcclusion` and `RenderAmbientColors` disabled
and a material with glossiness <= 0 and transmission <= 0, the result is the
clamp to [0,1] of `(base[0]*0, base[1]*0, base[2]*0, a)`, where `base` is the
base color `getColor(scene)` and `a` is 0 if `Dist` is negative and 1
otherwise; when the first three channels of `base` are finite this is
`(0, 0, 0, a)`. -/
theorem render_unlit_is_black (x : Externals) (cfg : Config) (scene : Scene)
    (i : IntersectionTriangle) (t : Triangle) (depth : Int)
    (hHit : i.Hit = true) (ht : i.Triangle = some t) (hdepth : depth < cfg.MaxReflectionDepth)
    (hg : t.Material.Glossiness ≤ 0) (htr : t.Material.Transmission ≤ 0)
    (hL : cfg.RenderLights = false) (hO : cfg.RenderOcclusion = false)
    (hA : cfg.RenderAmbientColors = false) :
    ∃ base, getColor x cfg scene i depth = some base ∧
      ∀ fuel,
        render x cfg scene (fuel + 1) i depth =
          .ok (limitVector ⟨base.c0 * 0, base.c1 * 0, base.c2 * 0,
                if i.Dist < 0 then 0 else 1⟩ 1) ∧
        (base.c0.isFinite = true → base.c1.isFinite = true → base.c2.isFinite = true →
          render x cfg scene (fuel + 1) i depth = .ok ⟨0, 0, 0, if i.Dist < 0 then 0 else 1⟩) := by
  obtain ⟨base, hbase⟩ := getColor_isSome x cfg scene i t ht depth
  refine ⟨base, hbase, fun fuel => ?_⟩
  have hc : surfaceColor x cfg scene i depth =
      some (limitVector ⟨base.c0 * 0, base.c1 * 0, base.c2 * 0,
              if i.Dist < 0 then 0 else 1⟩ 1) := by
    simp [surfaceColor, hL, hO, hA, hbase, Vector.zero]
  have hr : render x cfg scene (fuel + 1) i depth =
      .ok (limitVector ⟨base.c0 * 0, base.c1 * 0, base.c2 * 0,
            if i.Dist < 0 then 0 else 1⟩ 1) := by
    simp [render, renderCalls_diffuse x cfg scene fuel i t depth _ hHit ht hdepth hg htr hc]
  refine ⟨hr, fun h0 h1 h2 => ?_⟩
  rw [hr]
  obtain ⟨b0, b1, b2, b3⟩ := base
  cases b0 <;> simp [F64.isFinite] at h0
  cases b1 <;> simp [F64.isFinite] at h1
  cases b2 <;> simp [F64.isFinite] at h2
  simp only [limitVector, F64.zero_eq_fin, F64.fin_mul_fin, mul_zero]
  rw [← F64.zero_eq_fin, limitChannel_alpha]
  simp [limitChannel_zero_one, F64.zero_eq_fin]

/-- Witness for C5, amended: the white diffuse hit of the counterexample. -/
theorem render_unlit_is_black_witness :
    ∃ base, getColor (exampleExternals (exampleHit whiteDiffuse))
        { MaxReflectionDepth := 3, RenderColors := true } {} (exampleHit whiteDiffuse) 0
        = some base ∧
      ∀ fuel,
        render (exampleExternals (exampleHit whiteDiffuse))
            { MaxReflectionDepth := 3, RenderColors := true } {} (fuel + 1)
            (exampleHit whiteDiffuse) 0 =
          .ok (limitVector ⟨base.c0 * 0, base.c1 * 0, base.c2 * 0,
                if (exampleHit whiteDiffuse).Dist < 0 then 0 else 1⟩ 1) ∧
        (base.c0.isFinite = true → base.c1.isFinite = true → base.c2.isFinite = true →
          render (exampleExternals (exampleHit whiteDiffuse))
            { MaxReflectionDepth := 3, RenderColors := true } {} (fuel + 1)
            (exampleHit whiteDiffuse) 0
            = .ok ⟨0, 0, 0, if (exampleHit whiteDiffuse).Dist < 0 then 0 else 1⟩) :=
  render_unlit_is_black (exampleExternals (exampleHit whiteDiffuse))
    { MaxReflectionDepth := 3, RenderColors := true } {} (exampleHit whiteDiffuse)
    { id := 7, Material := whiteDiffuse } 0 rfl rfl (by decide)
    (by simp [whiteDiffuse, F64.zero_eq_fin]) (by simp [whiteDiffuse, F64.zero_eq_fin])
    rfl rfl rfl

/-! ## Emissive hits -/

/-- On an emissive triangle `calculateTotalLight` returns the material color
scaled by the material light strength, whatever the lights of the scene, the
stored photons, the order of arrival and the exposure. -/
theorem calculateTotalLightRecv_emissive (x : Externals) (cfg : Config) (scene : Scene)
    (i : IntersectionTriangle) (t : Triangle) (depth : Int) (arrival : List Light)
    (hHit : i.Hit = true) (ht : i.Triangle = some t) (hdepth : depth < cfg.MaxReflectionDepth)
    (hEm : t.Material.Light = true) :
    calculateTotalLightRecv x cfg scene i depth arrival
      = some (scaleVector t.Material.Color t.Material.LightStrength) := by
  unfold calculateTotalLightRecv
  simp [hHit, ht, hEm, not_le.mpr hdepth]

/-- C6, evaluated at a failing input: for the white emitter of strength 1 and
`Exposure = 2`, `calculateTotalLight` returns `Color x LightStrength`, that is
`(1,1,1,1)`, while `Color x LightStrength x Exposure` is `(2,2,2,2)`. -/
theorem calculateTotalLight_emissive_without_exposure :
    calculateTotalLight (exampleExternals (exampleHit whiteEmitter))
        { MaxReflectionDepth := 3, Exposure := F64.fin 2 } {} (exampleHit whiteEmitter) 0
      = some ⟨F64.fin 1, F64.fin 1, F64.fin 1, F64.fin 1⟩ ∧
    scaleVector (scaleVector whiteEmitter.Color whiteEmitter.LightStrength) (F64.fin 2)
      = ⟨F64.fin 2, F64.fin 2, F64.fin 2, F64.fin 2⟩ := by
  constructor
  · simp [calculateTotalLight, calculateTotalLightRecv, exampleHit, whiteEmitter, scaleVector,
      F64.one_eq_fin]
  · simp [whiteEmitter, scaleVector, F64.one_eq_fin]

/-! ## Point lights -/

/-- C7.  For every point light and every hit on a non-emissive triangle whose
material has no cached light strength (`LightStrength = 0`): if the nearest
scene intersection of the shadow ray from the light position is the shaded
triangle itself (same id) and its normal passes the same-side test against
the shaded normal, then `calculateLight` returns the zero vector when
`dot(normal, light-direction) < 0`, and otherwise
`(Color[0]*I, Color[1]*I, Color[2]*I, I)` with
`I = (1/d^2) * Exposure * max(0, dot(normal, light-direction)) * LightStrength`,
where `d = vectorDistance(hit point, light position)` and the light direction
is `normalizeVector(light position - hit point)`.  The call stores nothing in
the material. -/
theorem calculateLight_unoccluded_point (x : Externals) (cfg : Config) (scene : Scene)
    (i : IntersectionTriangle) (t st : Triangle) (light : Light) (depth : Int)
    (hHit : i.Hit = true) (ht : i.Triangle = some t)
    (hNE : t.Material.Light = false) (hLS : t.Material.LightStrength = 0)
    (hst : (x.raycastSceneIntersect scene light.Position
      (x.normalizeVector (subVector i.Intersection light.Position))).Triangle = some st)
    (hid : st.id = t.id)
    (hside : x.sameSideTest i.IntersectionNormal
      (x.raycastSceneIntersect scene light.Position
        (x.normalizeVector (subVector i.Intersection light.Position))).IntersectionNormal 0
      = true) :
    calculateLight x cfg scene i light depth =
      some
        (if x.dot i.IntersectionNormal
              (x.normalizeVector (subVector light.Position i.Intersection)) < 0 then
            Vector.zero
          else
            ⟨light.Color.c0 *
                (1 / (x.vectorDistance i.Intersection light.Position
                      * x.vectorDistance i.Intersection light.Position)
                  * cfg.Exposure
                  * F64.max 0 (x.dot i.IntersectionNormal
                      (x.normalizeVector (subVector light.Position i.Intersection)))
                  * light.LightStrength),
             light.Color.c1 *
                (1 / (x.vectorDistance i.Intersection light.Position
                      * x.vectorDistance i.Intersection light.Position)
                  * cfg.Exposure
                  * F64.max 0 (x.dot i.IntersectionNormal
                      (x.normalizeVector (subVector light.Position i.Intersection)))
                  * light.LightStrength),
             light.Color.c2 *
                (1 / (x.vectorDistance i.Intersection light.Position
                      * x.vectorDistance i.Intersection light.Position)
                  * cfg.Exposure
                  * F64.max 0 (x.dot i.IntersectionNormal
                      (x.normalizeVector (subVector light.Position i.Intersection)))
                  * light.LightStrength),
             1 / (x.vectorDistance i.Intersection light.Position
                    * x.vectorDistance i.Intersection light.Position)
                * cfg.Exposure
                * F64.max 0 (x.dot i.IntersectionNormal
                    (x.normalizeVector (subVector light.Position i.Intersection)))
                * light.LightStrength⟩,
         none) := by
  unfold calculateLight
  have hsame : sameTriangle (x.raycastSceneIntersect scene light.Position
      (x.normalizeVector (subVector i.Intersection light.Position))) i = some true := by
    rw [sameTriangle_of_some _ i t ht, hst]
    simp [hid]
  have hnot : ¬ ((0 : F64) < 0) := by simp [F64.zero_eq_fin]
  by_cases hdot : x.dot i.IntersectionNormal
      (x.normalizeVector (subVector light.Position i.Intersection)) < 0
  · simp [hHit, hdot]
  · simp only [hHit, hdot, ht, hNE, hsame, hside, hLS, hnot, if_false, if_true, true_or,
      Bool.true_eq_false, Bool.false_eq_true]
    rw [fmax_zero_of_not_lt _ hdot, fmul_assoc (1 / _ * cfg.Exposure)]

/-- Witness for C7: the white point light of strength 8 two units above the
example hit, with `Exposure = 3`: the intensity is `(1/4) * 3 * 1 * 8 = 6`. -/
theorem calculateLight_unoccluded_point_witness :
    calculateLight (exampleExternals (exampleHit whiteDiffuse))
        { MaxReflectionDepth := 3, Exposure := F64.fin 3 } {} (exampleHit whiteDiffuse)
        pointLightAbove 0
      = some (⟨F64.fin 6, F64.fin 6, F64.fin 6, F64.fin 6⟩, none) := by
  have h := calculateLight_unoccluded_point (exampleExternals (exampleHit whiteDiffuse))
    { MaxReflectionDepth := 3, Exposure := F64.fin 3 } {} (exampleHit whiteDiffuse)
    { id := 7, Material := whiteDiffuse } { id := 7, Material := whiteDiffuse }
    pointLightAbove 0 rfl rfl rfl rfl rfl rfl
    (by simp [exampleExternals, exampleHit, F64.ble, F64.zero_eq_fin, F64.one_eq_fin])
  rw [h]
  simp [exampleExternals, exampleHit, pointLightAbove, subVector, scaleVector, F64.max,
    Vector.zero, F64.zero_eq_fin, F64.one_eq_fin]
  norm_num

/-! ## Directional lights -/

theorem iterate_addVector_c (v : Vector) (n : Nat) (acc : Vector) :
    Nat.iterate (fun a => addVector a v) n acc =
      ⟨Nat.iterate (fun a => a + v.c0) n acc.c0, Nat.iterate (fun a => a + v.c1) n acc.c1,
       Nat.iterate (fun a => a + v.c2) n acc.c2, Nat.iterate (fun a => a + v.c3) n acc.c3⟩ := by
  induction n generalizing acc with
  | zero => rfl
  | succ m ih =>
    simp only [Function.iterate_succ_apply]
    rw [ih]
    rfl

theorem iterate_add_one (n : Nat) (k : ℚ) :
    Nat.iterate (fun a => a + (1 : F64)) n (F64.fin k) = F64.fin (k + n) := by
  induction n generalizing k with
  | zero => simp
  | succ m ih =>
    simp only [Function.iterate_succ_apply]
    rw [F64.one_eq_fin, F64.fin_add_fin, ← F64.one_eq_fin, ih]
    congr 1
    push_cast
    ring

/-- When every sample is accepted, the loop of `calculateDirectionalLight`
adds the contribution of one sample once per sample and counts the samples. -/
theorem directionalLoop_all_accepted (x : Externals) (cfg : Config) (scene : Scene)
    (i : IntersectionTriangle) (t : Triangle) (ht : i.Triangle = some t) (light : Light)
    (lightD : Vector) (dotP : F64) (samples : List Vector)
    (hacc : ∀ s ∈ samples, sampleAccepted x scene i t lightD s) :
    ∀ (acc : Vector) (hits : F64),
      directionalLoop x cfg scene i light lightD dotP samples acc hits =
        some (some
          (Nat.iterate (fun a => addVector a
              ⟨light.Color.c0 * (dotP * light.LightStrength * cfg.Exposure),
               light.Color.c1 * (dotP * light.LightStrength * cfg.Exposure),
               light.Color.c2 * (dotP * light.LightStrength * cfg.Exposure),
               dotP * light.LightStrength * cfg.Exposure⟩) samples.length acc,
           Nat.iterate (fun a => a + (1 : F64)) samples.length hits)) := by
  induction samples with
  | nil => intro acc hits; rfl
  | cons s rest ih =>
    intro acc hits
    obtain ⟨h1, h2⟩ := hacc s (List.mem_cons_self s rest)
    have ih2 := ih (fun s2 hs2 => hacc s2 (List.mem_cons_of_mem s hs2))
    have hcond : (match (directionalShadowRay x scene i lightD s).Triangle with
        | none => false
        | some st => decide (st.id = t.id)) = true ∨
        (directionalShadowRay x scene i lightD s).Dist < x.DIFF := by
      rcases h1 with ⟨st, hst, hid⟩ | h1
      · left
        rw [hst]
        simp [hid]
      · right
        exact h1
    simp only [directionalLoop, sameTriangle_of_some _ i t ht, hcond, h2, if_true,
      Bool.true_eq_false, if_false, List.length_cons, Function.iterate_succ_apply]
    exact ih2 _ _

/-- What `calculateDirectionalLight` returns when every shadow sample is
accepted, for a sample count `N = LightSampleCount >= 1` for which
`sampleSphere` yields `N` samples and a hit facing the light: the sum of the
`N` accepted contributions scaled by `totalHits/LightSampleCount = N/N = 1`,
that is `N` times the single-sample contribution
`(Color[0]*I, Color[1]*I, Color[2]*I, I)` with
`I = dot(normal, -direction) * LightStrength * Exposure`. -/
theorem calculateDirectionalLight_all_accepted (x : Externals) (cfg : Config) (scene : Scene)
    (i : IntersectionTriangle) (t : Triangle) (light : Light) (depth : Int)
    (hHit : i.Hit = true) (ht : i.Triangle = some t)
    (hface : 0 ≤ x.dot i.IntersectionNormal (scaleVector light.Direction (F64.fin (-1))))
    (hN : 1 ≤ cfg.LightSampleCount)
    (hlen : ((x.sampleSphere (F64.fin (1 / 5)) cfg.LightSampleCount).length : Int)
      = cfg.LightSampleCount)
    (hacc : ∀ s ∈ x.sampleSphere (F64.fin (1 / 5)) cfg.LightSampleCount,
      sampleAccepted x scene i t (scaleVector light.Direction (F64.fin (-1))) s) :
    calculateDirectionalLight x cfg scene i light depth =
      some (scaleVector
        ⟨light.Color.c0 *
            (x.dot i.IntersectionNormal (scaleVector light.Direction (F64.fin (-1)))
              * light.LightStrength * cfg.Exposure),
         light.Color.c1 *
            (x.dot i.IntersectionNormal (scaleVector light.Direction (F64.fin (-1)))
              * light.LightStrength * cfg.Exposure),
         light.Color.c2 *
            (x.dot i.IntersectionNormal (scaleVector light.Direction (F64.fin (-1)))
              * light.LightStrength * cfg.Exposure),
         x.dot i.IntersectionNormal (scaleVector light.Direction (F64.fin (-1)))
              * light.LightStrength * cfg.Exposure⟩
        (F64.ofInt cfg.LightSampleCount)) := by
  unfold calculateDirectionalLight
  have hdot := F64.not_lt_of_le hface
  simp only [hHit, Bool.true_eq_false, if_false, hdot]
  rw [directionalLoop_all_accepted x cfg scene i t ht light _ _ _ hacc]
  generalize x.sampleSphere (F64.fin (1 / 5)) cfg.LightSampleCount = samples at hlen
  obtain ⟨m, hm⟩ : ∃ m : Nat, samples.length = m + 1 := ⟨samples.length - 1, by omega⟩
  have hNq : cfg.LightSampleCount = ((m + 1 : Nat) : Int) := by rw [← hlen, hm]
  have hne : ¬ ((m : ℚ) + 1 = 0) := by positivity
  have hpos : (0 : ℚ) < (m : ℚ) + 1 := by positivity
  simp only [hm, hNq]
  rw [show (0 : F64) = F64.fin 0 from rfl, iterate_add_one]
  simp only [F64.fin_lt_fin, F64.ofInt_eq_fin, F64.fin_div_fin, Nat.cast_add, Nat.cast_one,
    Int.cast_add, Int.cast_natCast, Int.cast_one, zero_add, hne, hpos, if_true, if_false,
    div_self, ne_eq, not_false_eq_true]
  rw [iterate_addVector_c]
  simp only [Vector.zero, F64.zero_eq_fin, iterate_add_eq_mul, scaleVector, fmul_one,
    Nat.cast_add, Nat.cast_one]

/-- Example: the white directional light shining straight onto the example hit,
with two samples. -/
theorem calculateDirectionalLight_all_accepted_example :
    calculateDirectionalLight (exampleExternals (exampleHit whiteDiffuse))
        { MaxReflectionDepth := 3, Exposure := F64.fin 1, LightSampleCount := 2 } {}
        (exampleHit whiteDiffuse) sunLight 0
      = some (scaleVector
        ⟨sunLight.Color.c0 *
            ((exampleExternals (exampleHit whiteDiffuse)).dot
                (exampleHit whiteDiffuse).IntersectionNormal
                (scaleVector sunLight.Direction (F64.fin (-1)))
              * sunLight.LightStrength * F64.fin 1),
         sunLight.Color.c1 *
            ((exampleExternals (exampleHit whiteDiffuse)).dot
                (exampleHit whiteDiffuse).IntersectionNormal
                (scaleVector sunLight.Direction (F64.fin (-1)))
              * sunLight.LightStrength * F64.fin 1),
         sunLight.Color.c2 *
            ((exampleExternals (exampleHit whiteDiffuse)).dot
                (exampleHit whiteDiffuse).IntersectionNormal
                (scaleVector sunLight.Direction (F64.fin (-1)))
              * sunLight.LightStrength * F64.fin 1),
         (exampleExternals (exampleHit whiteDiffuse)).dot
                (exampleHit whiteDiffuse).IntersectionNormal
                (scaleVector sunLight.Direction (F64.fin (-1)))
              * sunLight.LightStrength * F64.fin 1⟩
        (F64.ofInt 2)) :=
  calculateDirectionalLight_all_accepted (exampleExternals (exampleHit whiteDiffuse))
    { MaxReflectionDepth := 3, Exposure := F64.fin 1, LightSampleCount := 2 } {}
    (exampleHit whiteDiffuse) { id := 7, Material := whiteDiffuse } sunLight 0 rfl rfl
    (by simp [exampleExternals, exampleHit, sunLight, scaleVector, F64.zero_eq_fin,
      F64.one_eq_fin])
    (by decide) (by simp [exampleExternals])
    (by
      intro s _
      simp [sampleAccepted, directionalShadowRay, exampleExternals, exampleHit, F64.ble,
        F64.zero_eq_fin, F64.one_eq_fin])

theorem F64.neg_fin (a : ℚ) : -(F64.fin a) = F64.fin (-a) := rfl

/-- Example: the same light and hit with every second shadow sample occluded.
The accepted contributions are summed and the sum is scaled by
`totalHits/LightSampleCount`, so that the value returned is
`I * totalHits * totalHits / LightSampleCount` per channel: `1/2` for 2
samples, `1` for 4 and `2` for 8, where the half-lit contribution is `1/2`. -/
theorem calculateDirectionalLight_half_occluded_example :
    calculateDirectionalLight (halfShadedExternals (exampleHit whiteDiffuse))
        { MaxReflectionDepth := 3, Exposure := F64.fin 1, LightSampleCount := 2 } {}
        (exampleHit whiteDiffuse) sunLight 0
      = some ⟨F64.fin (1 / 2), F64.fin (1 / 2), F64.fin (1 / 2), F64.fin (1 / 2)⟩ ∧
    calculateDirectionalLight (halfShadedExternals (exampleHit whiteDiffuse))
        { MaxReflectionDepth := 3, Exposure := F64.fin 1, LightSampleCount := 4 } {}
        (exampleHit whiteDiffuse) sunLight 0
      = some ⟨F64.fin 1, F64.fin 1, F64.fin 1, F64.fin 1⟩ ∧
    calculateDirectionalLight (halfShadedExternals (exampleHit whiteDiffuse))
        { MaxReflectionDepth := 3, Exposure := F64.fin 1, LightSampleCount := 8 } {}
        (exampleHit whiteDiffuse) sunLight 0
      = some ⟨F64.fin 2, F64.fin 2, F64.fin 2, F64.fin 2⟩ := by
  refine ⟨?_, ?_, ?_⟩
  · simp [calculateDirectionalLight, directionalLoop, directionalShadowRay, sameTriangle,
      halfShadedExternals, exampleExternals, exampleHit, occluderHit, sunLight, scaleVector,
      addVector, Vector.zero, F64.ble, List.range_succ, F64.neg_fin, F64.zero_eq_fin,
      F64.one_eq_fin]
    norm_num
  · simp [calculateDirectionalLight, directionalLoop, directionalShadowRay, sameTriangle,
      halfShadedExternals, exampleExternals, exampleHit, occluderHit, sunLight, scaleVector,
      addVector, Vector.zero, F64.ble, List.range_succ, F64.neg_fin, F64.zero_eq_fin,
      F64.one_eq_fin]
    norm_num
  · simp [calculateDirectionalLight, directionalLoop, directionalShadowRay, sameTriangle,
      halfShadedExternals, exampleExternals, exampleHit, occluderHit, sunLight, scaleVector,
      addVector, Vector.zero, F64.ble, List.range_succ, F64.neg_fin, F64.zero_eq_fin,
      F64.one_eq_fin]
    norm_num

/-- C8, evaluated at a failing input: the white directional light of strength 1
shining straight onto the example hit, with `Exposure = 1` and every shadow
sample accepted as unoccluded.  The single-sample hard-shadow contribution
`(Color[0]*I, Color[1]*I, Color[2]*I, I)` with
`I = dot(normal, -direction) * LightStrength * Exposure` is `(1,1,1,1)`.
`calculateDirectionalLight` returns it for `LightSampleCount = 1`, but
`(2,2,2,2)` for `LightSampleCount = 2`: the sum of the two accepted
contributions, scaled by `totalHits/LightSampleCount = 2/2`.  The value
returned depends on the sample count. -/
theorem calculateDirectionalLight_depends_on_sample_count :
    (0 : F64) ≤ (exampleExternals (exampleHit whiteDiffuse)).dot
        (exampleHit whiteDiffuse).IntersectionNormal
        (scaleVector sunLight.Direction (F64.fin (-1))) ∧
    (∀ s ∈ (exampleExternals (exampleHit whiteDiffuse)).sampleSphere (F64.fin (1 / 5)) 2,
      sampleAccepted (exampleExternals (exampleHit whiteDiffuse)) {} (exampleHit whiteDiffuse)
        { id := 7, Material := whiteDiffuse } (scaleVector sunLight.Direction (F64.fin (-1))) s) ∧
    ((exampleExternals (exampleHit whiteDiffuse)).sampleSphere (F64.fin (1 / 5)) 2).length = 2 ∧
    (exampleExternals (exampleHit whiteDiffuse)).dot (exampleHit whiteDiffuse).IntersectionNormal
        (scaleVector sunLight.Direction (F64.fin (-1))) * sunLight.LightStrength * F64.fin 1
      = F64.fin 1 ∧
    sunLight.Color = ⟨F64.fin 1, F64.fin 1, F64.fin 1, F64.fin 1⟩ ∧
    calculateDirectionalLight (exampleExternals (exampleHit whiteDiffuse))
        { MaxReflectionDepth := 3, Exposure := F64.fin 1, LightSampleCount := 1 } {}
        (exampleHit whiteDiffuse) sunLight 0
      = some ⟨F64.fin 1, F64.fin 1, F64.fin 1, F64.fin 1⟩ ∧
    calculateDirectionalLight (exampleExternals (exampleHit whiteDiffuse))
        { MaxReflectionDepth := 3, Exposure := F64.fin 1, LightSampleCount := 2 } {}
        (exampleHit whiteDiffuse) sunLight 0
      = some ⟨F64.fin 2, F64.fin 2, F64.fin 2, F64.fin 2⟩ ∧
    calculateDirectionalLight (exampleExternals (exampleHit whiteDiffuse))
        { MaxReflectionDepth := 3, Exposure := F64.fin 1, LightSampleCount := 2 } {}
        (exampleHit whiteDiffuse) sunLight 0
      ≠ some ⟨sunLight.Color.c0 * F64.fin 1, sunLight.Color.c1 * F64.fin 1,
          sunLight.Color.c2 * F64.fin 1, F64.fin 1⟩ := by
  have h2 : calculateDirectionalLight (exampleExternals (exampleHit whiteDiffuse))
        { MaxReflectionDepth := 3, Exposure := F64.fin 1, LightSampleCount := 2 } {}
        (exampleHit whiteDiffuse) sunLight 0
      = some ⟨F64.fin 2, F64.fin 2, F64.fin 2, F64.fin 2⟩ := by
    simp [calculateDirectionalLight, directionalLoop, directionalShadowRay, sameTriangle,
      exampleExternals, exampleHit, sunLight, scaleVector, addVector, Vector.zero, F64.ble,
      List.replicate, F64.zero_eq_fin, F64.one_eq_fin]
    norm_num
  refine ⟨?_, ?_, ?_, ?_, ?_, ?_, h2, ?_⟩
  · simp [exampleExternals, exampleHit, sunLight, scaleVector, F64.zero_eq_fin, F64.one_eq_fin]
  · intro s _
    simp [sampleAccepted, directionalShadowRay, exampleExternals, exampleHit, F64.ble,
      F64.zero_eq_fin, F64.one_eq_fin]
  · simp [exampleExternals]
  · simp [exampleExternals, exampleHit, sunLight, scaleVector, F64.zero_eq_fin, F64.one_eq_fin]
  · simp [sunLight, F64.one_eq_fin]
  · simp [calculateDirectionalLight, directionalLoop, directionalShadowRay, sameTriangle,
      exampleExternals, exampleHit, sunLight, scaleVector, addVector, Vector.zero, F64.ble,
      List.replicate, F64.zero_eq_fin, F64.one_eq_fin]
  · rw [h2]
    simp [sunLight, F64.one_eq_fin]

/-! ## Aggregation over the lights -/

theorem fadd_right_comm (a b c : F64) : a + b + c = a + c + b := by
  rw [fadd_assoc, fadd_comm b c, ← fadd_assoc]

theorem addVector_right_comm (a b c : Vector) :
    addVector (addVector a b) c = addVector (addVector a c) b := by
  simp only [addVector, Vector.mk.injEq]
  exact ⟨fadd_right_comm _ _ _, fadd_right_comm _ _ _, fadd_right_comm _ _ _,
    fadd_right_comm _ _ _⟩

theorem foldl_receiveLight_eq_filter (l : List Vector) :
    ∀ acc, l.foldl receiveLight acc
      = (l.filter (fun v => decide (0 < v.c3))).foldl addVector acc := by
  induction l with
  | nil => intro acc; rfl
  | cons v rest ih =>
    intro acc
    by_cases h : 0 < v.c3
    · simp [List.filter, h, receiveLight, ih]
    · simp [List.filter, h, receiveLight, ih]

/-- C9.  For every hit at a depth below `MaxReflectionDepth` on a non-emissive
triangle with caustics disabled, each light of the scene has a contribution
(`calculateDirectionalLight` for a directional light, the vector returned by
`calculateLight` otherwise), and for every order in which the results of the
lights are received from the channel `calculateTotalLight` returns the
component-wise sum of exactly those contributions whose w-component is > 0;
contributions whose w-component is not > 0 add nothing. -/
theorem calculateTotalLight_sums_positive (x : Externals) (cfg : Config) (scene : Scene)
    (i : IntersectionTriangle) (t : Triangle) (depth : Int)
    (hHit : i.Hit = true) (ht : i.Triangle = some t) (hdepth : depth < cfg.MaxReflectionDepth)
    (hNE : t.Material.Light = false)
    (hcaustics : ¬ (0 < cfg.PhotonSpacing ∧ cfg.RenderCaustics = true)) :
    ∃ contribution : Light → Vector,
      (∀ light, (if light.Directional = true then
            calculateDirectionalLight x cfg scene i light depth
          else (calculateLight x cfg scene i light depth).map Prod.fst)
          = some (contribution light)) ∧
      ∀ arrival : List Light, arrival.Perm scene.Lights →
        calculateTotalLightRecv x cfg scene i depth arrival =
          some (sumVectors
            ((scene.Lights.map contribution).filter (fun v => decide (0 < v.c3)))) := by
  refine ⟨fun light => (lightContribution x cfg scene i depth light).getD Vector.zero, ?_, ?_⟩
  · intro light
    have h := lightContribution_eq_getD x cfg scene i t ht depth light
    rw [← h]
    unfold lightContribution
    split_ifs
    · rfl
    · cases calculateLight x cfg scene i light depth <;> rfl
  · intro arrival hperm
    unfold calculateTotalLightRecv
    simp only [hHit, ht, hNE, not_le.mpr hdepth, Bool.true_eq_false, Bool.false_eq_true,
      or_self, if_false]
    rw [collect_eq_map _ _ arrival
      (fun l _ => lightContribution_eq_getD x cfg scene i t ht depth l)]
    simp only [causticLight, hcaustics, if_false, sumVectors]
    rw [foldl_receiveLight_eq_filter]
    haveI : RightCommutative addVector := ⟨addVector_right_comm⟩
    rw [List.Perm.foldl_eq ((hperm.map _).filter _)]

/-- Witness for C9: the example hit lit by a point light and a directional
light. -/
theorem calculateTotalLight_sums_positive_witness :
    ∃ contribution : Light → Vector,
      (∀ light, (if light.Directional = true then
            calculateDirectionalLight (exampleExternals (exampleHit whiteDiffuse))
              { MaxReflectionDepth := 3, Exposure := F64.fin 1, LightSampleCount := 2 }
              { Lights := [pointLightAbove, sunLight] } (exampleHit whiteDiffuse) light 0
          else (calculateLight (exampleExternals (exampleHit whiteDiffuse))
              { MaxReflectionDepth := 3, Exposure := F64.fin 1, LightSampleCount := 2 }
              { Lights := [pointLightAbove, sunLight] } (exampleHit whiteDiffuse) light 0).map
                Prod.fst)
          = some (contribution light)) ∧
      ∀ arrival : List Light, arrival.Perm [pointLightAbove, sunLight] →
        calculateTotalLightRecv (exampleExternals (exampleHit whiteDiffuse))
            { MaxReflectionDepth := 3, Exposure := F64.fin 1, LightSampleCount := 2 }
            { Lights := [pointLightAbove, sunLight] } (exampleHit whiteDiffuse) 0 arrival =
          some (sumVectors
            (([pointLightAbove, sunLight].map contribution).filter
              (fun v => decide (0 < v.c3)))) :=
  calculateTotalLight_sums_positive (exampleExternals (exampleHit whiteDiffuse))
    { MaxReflectionDepth := 3, Exposure := F64.fin 1, LightSampleCount := 2 }
    { Lights := [pointLightAbove, sunLight] } (exampleHit whiteDiffuse)
    { id := 7, Material := whiteDiffuse } 0 rfl rfl (by decide) rfl (by simp)

/-! ## Zero sample directions -/

/-- C10, evaluated at a failing input: a hit on a half glossy material of
roughness 0.05, lit by a point light.  `floor(0.05*10) = 0`, so the direction
list is empty; the average divides by `float64(0)`, `1.0/0 = +Inf`, the empty
sum scaled by it is `0 * +Inf = NaN`, and the color returned has its first
three channels NaN. -/
theorem render_zero_directions_nan :
    (0 : F64) < roughGlossy.Glossiness ∧
    (0 : F64) < roughGlossy.Roughness ∧ roughGlossy.Roughness < F64.fin (1 / 10) ∧
    sampleDirs (exampleExternals (exampleHit roughGlossy)) (exampleHit roughGlossy) roughGlossy
      = [] ∧
    (1 : F64) / F64.ofNat ([] : List Vector).length = F64.inf false ∧
    averageColor [] ([] : List Vector).length = ⟨F64.nan, F64.nan, F64.nan, F64.nan⟩ ∧
    render (exampleExternals (exampleHit roughGlossy))
        { MaxReflectionDepth := 3, RenderColors := true, RenderLights := true,
          Exposure := F64.fin 1 }
        { Lights := [pointLightAbove] } 1 (exampleHit roughGlossy) 0
      = .ok ⟨F64.nan, F64.nan, F64.nan, F64.fin 1⟩ ∧
    F64.isFinite F64.nan = false := by
  have hdirs : sampleDirs (exampleExternals (exampleHit roughGlossy)) (exampleHit roughGlossy)
      roughGlossy = [] := by
    simp [sampleDirs, roughGlossy, F64.toInt, F64.truncQ, F64.zero_eq_fin, F64.one_eq_fin]
    norm_num
  refine ⟨?_, ?_, ?_, hdirs, ?_, ?_, ?_, rfl⟩
  · simp [roughGlossy, F64.zero_eq_fin]
  · simp [roughGlossy, F64.zero_eq_fin]
  · simp [roughGlossy]; norm_num
  · simp [F64.one_eq_fin]
  · simp [averageColor, scaleVector, Vector.zero, F64.zero_eq_fin, F64.one_eq_fin]
  · simp [render, renderCalls, renderBody, surfaceColor, getDirectLight,
      calculateTotalLight, calculateTotalLightRecv, collect, lightContribution, calculateLight,
      sameTriangle, causticLight, receiveLight, getColor, exampleHit, exampleExternals,
      roughGlossy, pointLightAbove, fanOut, spawnArguments, gather_nil, averageColor,
      blendColor, scaleVector, addVector, subVector, limitVector, limitChannel, Vector.zero,
      F64.ble, F64.toInt, F64.truncQ, sampleDirs, F64.zero_eq_fin, F64.one_eq_fin]
    norm_num
    simp [render, renderCalls, renderBody, surfaceColor, getDirectLight,
      calculateTotalLight, calculateTotalLightRecv, collect, lightContribution, calculateLight,
      sameTriangle, causticLight, receiveLight, getColor, exampleHit, exampleExternals,
      roughGlossy, pointLightAbove, fanOut, spawnArguments, gather_nil, averageColor,
      blendColor, scaleVector, addVector, subVector, limitVector, limitChannel, Vector.zero,
      F64.ble, F64.toInt, F64.truncQ, sampleDirs, F64.zero_eq_fin, F64.one_eq_fin]

/-! ## Texture lookup -/

/-- On a textured hit `getColor` returns the color of the pixel at
`texturePixel`. -/
theorem getColor_textured (x : Externals) (cfg : Config) (scene : Scene)
    (i : IntersectionTriangle) (t : Triangle) (img : Image) (s : Vector) (depth : Int)
    (hHit : i.Hit = true) (hC : cfg.RenderColors = true) (ht : i.Triangle = some t)
    (hTex : t.Material.Texture ≠ "") (hImg : scene.ImageMap t.Material.Texture = some img)
    (hs : getTexCoords x i = some s) :
    getColor x cfg scene i depth = some (pixelColor img (texturePixel img s)) := by
  unfold getColor
  simp [hHit, hC, ht, hTex, hImg, hs, pixelColor, texturePixel, wrappedCoordinates]

/-- The wrap-around of a finite coordinate lies in [0,1]. -/
theorem wrapCoordinate_fin (u : ℚ) :
    ∃ a : ℚ, wrapCoordinate (F64.fin u) = F64.fin a ∧ 0 ≤ a ∧ a ≤ 1 := by
  unfold wrapCoordinate
  by_cases h1 : (1 : ℚ) < u
  · refine ⟨Int.fract u, ?_, Int.fract_nonneg u, (Int.fract_lt_one u).le⟩
    have hn : ¬ (Int.fract u < 0) := not_lt.mpr (Int.fract_nonneg u)
    simp [F64.one_eq_fin, F64.zero_eq_fin, h1, hn]
  · by_cases h0 : u < 0
    · refine ⟨1 - Int.fract |u|, ?_, ?_, ?_⟩
      · simp [F64.one_eq_fin, F64.zero_eq_fin, h1, h0]
      · have := (Int.fract_lt_one |u|).le
        linarith
      · have := Int.fract_nonneg |u|
        linarith
    · refine ⟨u, ?_, not_lt.mp h0, not_lt.mp h1⟩
      simp [F64.one_eq_fin, F64.zero_eq_fin, h1, h0]

/-- Removing the integer part of a value of [0,1] gives a value of [0,1). -/
theorem dropInteger_fin (a : ℚ) (h0 : 0 ≤ a) (h1 : a ≤ 1) :
    ∃ b : ℚ, dropInteger (F64.fin a) = F64.fin b ∧ 0 ≤ b ∧ b < 1 := by
  have hf0 : (0 : Int) ≤ ⌊a⌋ := Int.floor_nonneg.mpr h0
  have hf1 : ⌊a⌋ ≤ (1 : Int) := by
    have : ⌊a⌋ ≤ ⌊(1 : ℚ)⌋ := Int.floor_le_floor h1
    simpa using this
  have hrange : -(2 : Int) ^ 63 ≤ ⌊a⌋ ∧ ⌊a⌋ < (2 : Int) ^ 63 := by
    constructor <;> norm_num <;> omega
  refine ⟨Int.fract a, ?_, Int.fract_nonneg a, Int.fract_lt_one a⟩
  simp only [dropInteger, F64.toInt, F64.truncQ, h0, if_true, hrange, and_self,
    F64.ofInt_eq_fin, F64.fin_sub_fin, Int.self_sub_floor]

/-- The pixel index of a coordinate of [0,1) in an image side of positive
length lies in the image. -/
theorem pixel_index_in_bounds (w : Int) (b : ℚ) (hw : 0 < w) (hwr : w < 2 ^ 63)
    (h0 : 0 ≤ b) (h1 : b < 1) :
    0 ≤ F64.toInt (F64.ofInt w * F64.fin b) ∧ F64.toInt (F64.ofInt w * F64.fin b) < w := by
  have hwq : (0 : ℚ) < (w : ℚ) := by exact_mod_cast hw
  have hp0 : (0 : ℚ) ≤ (w : ℚ) * b := mul_nonneg hwq.le h0
  have hp1 : (w : ℚ) * b < (w : ℚ) := by
    have := mul_lt_mul_of_pos_left h1 hwq
    simpa using this
  have hf0 : (0 : Int) ≤ ⌊(w : ℚ) * b⌋ := Int.floor_nonneg.mpr hp0
  have hf1 : ⌊(w : ℚ) * b⌋ < w := by
    rw [Int.floor_lt]
    exact hp1
  have hrange : -(2 : Int) ^ 63 ≤ ⌊(w : ℚ) * b⌋ ∧ ⌊(w : ℚ) * b⌋ < (2 : Int) ^ 63 := by
    constructor
    · have : -(2 : Int) ^ 63 ≤ 0 := by norm_num
      omega
    · omega
  simp only [F64.ofInt_eq_fin, F64.fin_mul_fin, F64.toInt, F64.truncQ, hp0, if_true, hrange,
    and_self]
  exact ⟨hf0, hf1⟩

/-- C11.  For every textured hit whose interpolated texture coordinates
`(u, v)` are finite (positive, zero or negative) and every texture image of
width `W > 0` and height `H > 0` (Go `int` values, so below 2^63) with bounds
starting at (0,0): the wrap-around of `getColor` yields wrapped coordinates in
[0,1), the pixel position it computes satisfies `0 <= pixelX < W` and
`0 <= pixelY < H`, and `getColor` returns the color of the image at that
position. -/
theorem getColor_lookup_in_bounds (x : Externals) (cfg : Config) (scene : Scene)
    (i : IntersectionTriangle) (t : Triangle) (img : Image) (depth : Int)
    (u v : ℚ) (c2 c3 : F64)
    (hHit : i.Hit = true) (hC : cfg.RenderColors = true) (ht : i.Triangle = some t)
    (hTex : t.Material.Texture ≠ "") (hImg : scene.ImageMap t.Material.Texture = some img)
    (hs : getTexCoords x i = some ⟨F64.fin u, F64.fin v, c2, c3⟩)
    (hW : 0 < img.MaxX) (hH : 0 < img.MaxY)
    (hWr : img.MaxX < 2 ^ 63) (hHr : img.MaxY < 2 ^ 63) :
    ∃ a b : ℚ,
      wrappedCoordinates ⟨F64.fin u, F64.fin v, c2, c3⟩ = (F64.fin a, F64.fin b) ∧
      (0 ≤ a ∧ a < 1) ∧ (0 ≤ b ∧ b < 1) ∧
      (0 ≤ (texturePixel img ⟨F64.fin u, F64.fin v, c2, c3⟩).1 ∧
        (texturePixel img ⟨F64.fin u, F64.fin v, c2, c3⟩).1 < img.MaxX) ∧
      (0 ≤ (texturePixel img ⟨F64.fin u, F64.fin v, c2, c3⟩).2 ∧
        (texturePixel img ⟨F64.fin u, F64.fin v, c2, c3⟩).2 < img.MaxY) ∧
      getColor x cfg scene i depth
        = some (pixelColor img (texturePixel img ⟨F64.fin u, F64.fin v, c2, c3⟩)) := by
  obtain ⟨a0, ha0, ha0l, ha0u⟩ := wrapCoordinate_fin u
  obtain ⟨b0, hb0, hb0l, hb0u⟩ := wrapCoordinate_fin v
  obtain ⟨a, ha, hal, hau⟩ := dropInteger_fin a0 ha0l ha0u
  obtain ⟨b, hb, hbl, hbu⟩ := dropInteger_fin (1 - b0) (by linarith) (by linarith)
  have hw : wrappedCoordinates ⟨F64.fin u, F64.fin v, c2, c3⟩ = (F64.fin a, F64.fin b) := by
    simp only [wrappedCoordinates, ha0, hb0, ha, F64.one_eq_fin, F64.fin_sub_fin, hb]
  refine ⟨a, b, hw, ⟨hal, hau⟩, ⟨hbl, hbu⟩, ?_, ?_,
    getColor_textured x cfg scene i t img _ depth hHit hC ht hTex hImg hs⟩
  · simp only [texturePixel, hw]
    exact pixel_index_in_bounds img.MaxX a hW hWr hal hau
  · simp only [texturePixel, hw]
    exact pixel_index_in_bounds img.MaxY b hH hHr hbl hbu

/-- Witness for C11: the textured example hit, with coordinates `(-3/2, 1)`, on
the 4 by 2 checkerboard. -/
theorem getColor_lookup_in_bounds_witness :
    ∃ a b : ℚ,
      wrappedCoordinates ⟨F64.fin (-3 / 2), F64.fin 1, 0, 0⟩ = (F64.fin a, F64.fin b) ∧
      (0 ≤ a ∧ a < 1) ∧ (0 ≤ b ∧ b < 1) ∧
      (0 ≤ (texturePixel checkerImage ⟨F64.fin (-3 / 2), F64.fin 1, 0, 0⟩).1 ∧
        (texturePixel checkerImage ⟨F64.fin (-3 / 2), F64.fin 1, 0, 0⟩).1 < checkerImage.MaxX) ∧
      (0 ≤ (texturePixel checkerImage ⟨F64.fin (-3 / 2), F64.fin 1, 0, 0⟩).2 ∧
        (texturePixel checkerImage ⟨F64.fin (-3 / 2), F64.fin 1, 0, 0⟩).2 < checkerImage.MaxY) ∧
      getColor (exampleExternals texturedHit) { RenderColors := true } checkerScene
          texturedHit 0
        = some (pixelColor checkerImage
            (texturePixel checkerImage ⟨F64.fin (-3 / 2), F64.fin 1, 0, 0⟩)) :=
  getColor_lookup_in_bounds (exampleExternals texturedHit) { RenderColors := true }
    checkerScene texturedHit
    { id := 7
      T1 := ⟨F64.fin (-9 / 2), F64.fin 3, 0, 0⟩
      Material := { Color := ⟨1, 1, 1, 1⟩, Texture := "checker" } }
    checkerImage 0 (-3 / 2) 1 0 0 rfl rfl rfl (by decide) (by simp [checkerScene])
    (by
      simp [getTexCoords, texturedHit, exampleExternals, Vector.zero, F64.zero_eq_fin]
      norm_num)
    (by decide) (by decide) (by decide) (by decide)

/-- The example evaluated: the coordinates `(-3/2, 1)` wrap to `(1/2, 0)` and
the pixel read is `(2, 0)`. -/
theorem texturePixel_example :
    wrappedCoordinates ⟨F64.fin (-3 / 2), F64.fin 1, 0, 0⟩ = (F64.fin (1 / 2), F64.fin 0) ∧
    texturePixel checkerImage ⟨F64.fin (-3 / 2), F64.fin 1, 0, 0⟩ = (2, 0) := by
  have hf : ⌊(3 / 2 : ℚ)⌋ = 1 := by
    rw [Int.floor_eq_iff]
    norm_num
  have hf1 : ⌊(1 / 2 : ℚ)⌋ = 0 := by
    rw [Int.floor_eq_iff]
    norm_num
  have habs : |(-3 / 2 : ℚ)| = 3 / 2 := by
    rw [abs_of_neg (by norm_num)]
    norm_num
  have h : wrappedCoordinates ⟨F64.fin (-3 / 2), F64.fin 1, 0, 0⟩
      = (F64.fin (1 / 2), F64.fin 0) := by
    simp only [wrappedCoordinates, wrapCoordinate, dropInteger, F64.toInt, F64.truncQ,
      F64.one_eq_fin, F64.zero_eq_fin, F64.fin_lt_fin, F64.fin_sub_fin, F64.abs_fin,
      F64.floor_fin, F64.ofInt_eq_fin, habs, hf]
    have habs2 : |(3 / 2 : ℚ)| = 3 / 2 := abs_of_pos (by norm_num)
    have hfr : Int.fract (3 / 2 : ℚ) = 1 / 2 := by
      rw [Int.fract, hf]
      norm_num
    norm_num [habs2, hfr, hf1]
  refine ⟨h, ?_⟩
  simp only [texturePixel, h, checkerImage, F64.ofInt_eq_fin, F64.fin_mul_fin, F64.toInt,
    F64.truncQ]
  norm_num

/-! ## Flattening the object hierarchy -/

theorem mapSet_of_not_mem {V : Type} (m : List (String × V)) (k : String) (v : V)
    (h : k ∉ m.map Prod.fst) : mapSet m k v = m ++ [(k, v)] := by
  unfold mapSet
  rw [if_neg h]

theorem lookup_of_mem_nodup {V : Type} (l : List (String × V)) (k : String) (v : V)
    (hn : (l.map Prod.fst).Nodup) (hm : (k, v) ∈ l) : l.lookup k = some v := by
  induction l with
  | nil => simp at hm
  | cons e rest ih =>
    obtain ⟨k2, v2⟩ := e
    simp only [List.map_cons, List.nodup_cons] at hn
    simp only [List.mem_cons, Prod.mk.injEq] at hm
    rcases hm with ⟨rfl, rfl⟩ | hm
    · simp [List.lookup]
    · have hne : k ≠ k2 := by
        rintro rfl
        exact hn.1 (List.mem_map.mpr ⟨(k, v), hm, rfl⟩)
      have hb : (k == k2) = false := by simpa using hne
      simp only [List.lookup, hb]
      exact ih hn.2 hm

/-- The loop over `flatList`, when the children are distinct objects other than
the parent and their keys are new: every child is stored under the key of the
parent followed by its own, and its matrix is multiplied once by that of the
parent. -/
theorem flattenChildren_eq {Mat : Type} (mul : Mat → Mat → Mat) (k : String) (parent : Nat)
    (l : List (String × ObjectRef)) :
    ∀ (result : List (String × ObjectRef)) (m : Nat → Mat),
      (l.map (fun p => p.2.addr)).Nodup → parent ∉ l.map (fun p => p.2.addr) →
      (l.map (fun p => k ++ p.1)).Nodup →
      (∀ p ∈ l, k ++ p.1 ∉ result.map Prod.fst) →
      flattenChildren mul k parent l (result, m) =
        (result ++ l.map (fun p => (k ++ p.1, p.2)),
         fun a => if a ∈ l.map (fun p => p.2.addr) then mul (m a) (m parent) else m a) := by
  induction l with
  | nil =>
    intro result m _ _ _ _
    simp [flattenChildren]
  | cons e rest ih =>
    obtain ⟨sk, sub⟩ := e
    intro result m ha hp hk hr
    simp only [List.map_cons, List.nodup_cons, List.mem_cons, not_or] at ha hp hk
    have hnew : k ++ sk ∉ result.map Prod.fst := hr (sk, sub) (List.mem_cons_self _ _)
    simp only [flattenChildren, mapSet_of_not_mem _ _ _ hnew]
    rw [ih _ _ ha.2 hp.2 hk.2]
    · refine Prod.ext ?_ ?_
      · simp
      · funext a
        simp only [List.map_cons, List.mem_cons]
        have hpar : Function.update m sub.addr (mul (m sub.addr) (m parent)) parent
            = m parent := Function.update_noteq hp.1 _ _
        by_cases h1 : a = sub.addr
        · subst h1
          simp [ha.1, hpar]
        · by_cases h2 : a ∈ rest.map (fun p => p.2.addr)
          · simp [h1, h2, hpar, Function.update_noteq h1]
          · simp [h1, h2, Function.update_noteq h1]
    · intro p hp2
      simp only [List.map_append, List.map_cons, List.map_nil, List.mem_append,
        List.mem_singleton, not_or]
      refine ⟨hr p (List.mem_cons_of_mem _ hp2), fun heq => ?_⟩
      exact hk.1 (List.mem_map.mpr ⟨p, hp2, heq⟩)

theorem Objects.length_eq_zero (o : Objects) (h : ¬ o.length > 0) : o = .nil := by
  cases o with
  | nil => rfl
  | cons _ _ _ rest => simp [Objects.length] at h

theorem successiveProduct_append {Mat : Type} (mul : Mat → Mat → Mat) (m : Nat → Mat)
    (own : Nat) (anc : List Nat) (a : Nat) :
    successiveProduct mul m own (anc ++ [a]) = mul (successiveProduct mul m own anc) (m a) := by
  simp [successiveProduct, List.foldl_append]

theorem successiveProduct_congr {Mat : Type} (mul : Mat → Mat → Mat) (m1 m2 : Nat → Mat)
    (own : Nat) (anc : List Nat) (h0 : m1 own = m2 own) (h : ∀ a ∈ anc, m1 a = m2 a) :
    successiveProduct mul m1 own anc = successiveProduct mul m2 own anc := by
  unfold successiveProduct
  rw [h0]
  generalize m2 own = start
  induction anc generalizing start with
  | nil => rfl
  | cons a rest ih =>
    simp only [List.foldl_cons]
    rw [h a (List.mem_cons_self _ _)]
    exact ih (fun b hb => h b (List.mem_cons_of_mem _ hb)) _

/-- The ancestors of an object of a hierarchy are objects of the hierarchy. -/
theorem Objects.ancestors_mem (o : Objects) :
    ∀ e ∈ o.flattened, ∀ a ∈ e.2.2, a ∈ o.flattened.map (fun e => e.2.1.addr) := by
  induction o with
  | nil => intro e he; simp [Objects.flattened] at he
  | cons k addr children rest ihc ihr =>
    intro e he a ha
    simp only [Objects.flattened, List.mem_cons, List.mem_append, List.mem_map] at he
    simp only [Objects.flattened, List.map_cons, List.map_append, List.map_map, List.mem_cons,
      List.mem_append]
    rcases he with rfl | ⟨e2, he2, rfl⟩ | he
    · simp at ha
    · simp only [List.mem_append, List.mem_singleton] at ha
      rcases ha with ha | rfl
      · right; left
        have := ihc e2 he2 a ha
        simpa [List.mem_map, Function.comp] using this
      · left; rfl
    · right; right
      exact ihr e he a ha

/-- One round of the loop over `objects`: the children of `objects[k]` are
flattened from an empty map and stored under `k` followed by their key, also
when there are none. -/
theorem flattenInto_cons {Mat : Type} (mul : Mat → Mat → Mat)
    (order : List (String × ObjectRef) → List (String × ObjectRef))
    (horder : ∀ l, (order l).Perm l) (k : String) (addr : Nat) (children rest : Objects)
    (result : List (String × ObjectRef)) (m : Nat → Mat) :
    flattenInto mul order (.cons k addr children rest) result m =
      flattenInto mul order rest
        (flattenChildren mul k addr (order (flattenInto mul order children [] m).1)
          (mapSet result k ⟨addr, children⟩, (flattenInto mul order children [] m).2)).1
        (flattenChildren mul k addr (order (flattenInto mul order children [] m).1)
          (mapSet result k ⟨addr, children⟩, (flattenInto mul order children [] m).2)).2 := by
  rw [flattenInto]
  by_cases h : children.length > 0
  · simp only [h, if_true]
  · have hnil := Objects.length_eq_zero children h
    subst hnil
    have hempty : order [] = [] := List.Perm.eq_nil (horder [])
    simp only [Objects.length, gt_iff_lt, lt_self_iff_false, if_false, flattenInto, hempty,
      flattenChildren]

/-- The loop over `objects` from a given state: when no object occurs twice and
the concatenated names are pairwise distinct and new, the entries written are
those of the objects of the hierarchy, each under its concatenated name, and
the matrix of each is its own multiplied successively by those of its
ancestors; no other matrix changes. -/
theorem flattenInto_spec {Mat : Type} (mul : Mat → Mat → Mat)
    (order : List (String × ObjectRef) → List (String × ObjectRef))
    (horder : ∀ l, (order l).Perm l) (o : Objects) :
    ∀ (result : List (String × ObjectRef)) (m : Nat → Mat),
      (o.flattened.map (fun e => e.2.1.addr)).Nodup →
      (o.flattened.map (fun e => e.1)).Nodup →
      (∀ key ∈ o.flattened.map (fun e => e.1), key ∉ result.map Prod.fst) →
      ∃ W, (flattenInto mul order o result m).1 = result ++ W ∧
        W.Perm (o.flattened.map (fun e => (e.1, e.2.1))) ∧
        (∀ e ∈ o.flattened, (flattenInto mul order o result m).2 e.2.1.addr
          = successiveProduct mul m e.2.1.addr e.2.2) ∧
        (∀ a, a ∉ o.flattened.map (fun e => e.2.1.addr) →
          (flattenInto mul order o result m).2 a = m a) := by
  induction o with
  | nil =>
    intro result m _ _ _
    exact ⟨[], by simp [flattenInto], by simp [Objects.flattened],
      by simp [Objects.flattened], by simp [flattenInto]⟩
  | cons k addr children rest ihc ihr =>
    intro result m haddr hkeys hres
    -- the addresses and keys of the hierarchy, by part
    simp only [Objects.flattened, List.map_cons, List.map_append, List.map_map,
      Function.comp_def, List.nodup_cons, List.nodup_append, List.mem_append, not_or]
      at haddr hkeys
    obtain ⟨⟨haC, haR⟩, haCn, haRn, haDisj⟩ := haddr
    obtain ⟨⟨hkC, hkR⟩, hkCn, hkRn, hkDisj⟩ := hkeys
    have hkCn2 : (children.flattened.map (fun e => e.1)).Nodup := by
      have h : (children.flattened.map (fun e => k ++ e.1))
          = (children.flattened.map (fun e => e.1)).map (fun s => k ++ s) := by
        simp [List.map_map, Function.comp_def]
      rw [h] at hkCn
      exact List.Nodup.of_map _ hkCn
    have hkNew : k ∉ result.map Prod.fst :=
      hres k (by simp [Objects.flattened])
    -- the recursive call on the children
    obtain ⟨Wc, hWc, hWcP, hmC, hfC⟩ := ihc [] m haCn hkCn2 (by simp)
    simp only [List.nil_append] at hWc
    have hL : (order Wc).Perm (children.flattened.map (fun e => (e.1, e.2.1))) :=
      (horder Wc).trans hWcP
    have hLaddr : ((order Wc).map (fun p => p.2.addr)).Perm
        (children.flattened.map (fun e => e.2.1.addr)) := by
      have := hL.map (fun p => p.2.addr)
      simpa [List.map_map, Function.comp_def] using this
    have hLkey : ((order Wc).map (fun p => k ++ p.1)).Perm
        (children.flattened.map (fun e => k ++ e.1)) := by
      have := hL.map (fun p => k ++ p.1)
      simpa [List.map_map, Function.comp_def] using this
    -- the loop over the flattened children
    have hchildren := flattenChildren_eq mul k addr (order Wc)
      (result ++ [(k, (⟨addr, children⟩ : ObjectRef))]) (flattenInto mul order children [] m).2
      (hLaddr.nodup_iff.mpr haCn) (fun h => haC (hLaddr.mem_iff.mp h))
      (hLkey.nodup_iff.mpr hkCn)
      (by
        intro p hp
        have hmem : k ++ p.1 ∈ children.flattened.map (fun e => k ++ e.1) :=
          hLkey.mem_iff.mp (List.mem_map.mpr ⟨p, hp, rfl⟩)
        simp only [List.map_append, List.map_cons, List.map_nil, List.mem_append,
          List.mem_singleton, not_or]
        refine ⟨hres _ ?_, fun heq => hkC (by rw [heq] at hmem; exact hmem)⟩
        simp only [Objects.flattened, List.map_cons, List.map_append, List.map_map,
          Function.comp_def, List.mem_cons, List.mem_append]
        exact Or.inr (Or.inl hmem))
    -- the recursive call on the remaining objects
    obtain ⟨Wr, hWr, hWrP, hmR, hfR⟩ := ihr
      (result ++ [(k, (⟨addr, children⟩ : ObjectRef))]
        ++ (order Wc).map (fun p => (k ++ p.1, p.2)))
      (fun a => if a ∈ (order Wc).map (fun p => p.2.addr) then
          mul ((flattenInto mul order children [] m).2 a)
            ((flattenInto mul order children [] m).2 addr)
        else (flattenInto mul order children [] m).2 a)
      haRn hkRn
      (by
        intro key hkey
        simp only [List.map_append, List.map_cons, List.map_nil, List.map_map,
          Function.comp_def, List.mem_append, List.mem_singleton, not_or]
        refine ⟨⟨hres key ?_, fun heq => hkR (by rw [← heq]; exact hkey)⟩, fun h => ?_⟩
        · simp only [Objects.flattened, List.map_cons, List.map_append, List.map_map,
            Function.comp_def, List.mem_cons, List.mem_append]
          exact Or.inr (Or.inr hkey)
        · exact hkDisj (hLkey.mem_iff.mp h) hkey)
    have hstep := flattenInto_cons mul order horder k addr children rest result m
    rw [hWc, mapSet_of_not_mem _ _ _ hkNew, hchildren] at hstep
    -- the matrices outside the part just changed
    have hm2 : ∀ a, a ∉ children.flattened.map (fun e => e.2.1.addr) →
        (if a ∈ (order Wc).map (fun p => p.2.addr) then
          mul ((flattenInto mul order children [] m).2 a)
            ((flattenInto mul order children [] m).2 addr)
        else (flattenInto mul order children [] m).2 a) = m a := by
      intro a ha
      rw [if_neg (fun h => ha (hLaddr.mem_iff.mp h))]
      exact hfC a ha
    refine ⟨[(k, (⟨addr, children⟩ : ObjectRef))]
      ++ (order Wc).map (fun p => (k ++ p.1, p.2)) ++ Wr, ?_, ?_, ?_, ?_⟩
    · rw [hstep, hWr]
      simp [List.append_assoc]
    · simp only [Objects.flattened, List.map_cons, List.map_append, List.map_map,
        Function.comp_def, List.singleton_append, List.cons_append]
      refine List.Perm.cons _ (List.Perm.append ?_ hWrP)
      have := hL.map (fun p => (k ++ p.1, p.2))
      simpa [List.map_map, Function.comp_def] using this
    · intro e he
      rw [hstep]
      simp only [Objects.flattened, List.mem_cons, List.mem_append, List.mem_map] at he
      rcases he with rfl | ⟨e2, he2, rfl⟩ | he
      · rw [hfR addr haR, hm2 addr haC]
        rfl
      · have hd : e2.2.1.addr ∈ children.flattened.map (fun e => e.2.1.addr) :=
          List.mem_map.mpr ⟨e2, he2, rfl⟩
        rw [hfR _ (fun h => haDisj hd h), if_pos (hLaddr.mem_iff.mpr hd), hmC e2 he2,
          hfC addr haC, successiveProduct_append]
      · have hown : e.2.1.addr ∈ rest.flattened.map (fun e => e.2.1.addr) :=
          List.mem_map.mpr ⟨e, he, rfl⟩
        rw [hmR e he]
        apply successiveProduct_congr
        · exact hm2 _ (fun h => haDisj h hown)
        · intro a ha
          exact hm2 _ (fun h => haDisj h (Objects.ancestors_mem rest e he a ha))
    · intro a ha
      simp only [Objects.flattened, List.map_cons, List.map_append, List.map_map,
        Function.comp_def, List.mem_cons, List.mem_append, not_or] at ha
      rw [hstep, hfR a ha.2.2, hm2 a ha.2.1]

/-- C12 as stated fails when two concatenated names coincide.  In the
hierarchy with the object `a`, its child `b`, and a second top-level object
`ab`, the child has the concatenated name `ab` as well.  Whichever of `a` and
`ab` the loop visits first, the map returned has two entries for the three
objects: with `a` first the key `ab` holds the top-level object (address 3)
and the child (address 2) is stored nowhere; with `ab` first the key `ab`
holds the child and the top-level object `ab` is stored nowhere. -/
theorem flattenSceneObjects_clash_counterexample :
    ("ab", (⟨2, .nil⟩ : ObjectRef), [1]) ∈ clashingHierarchy.flattened ∧
    ("ab", (⟨3, .nil⟩ : ObjectRef), []) ∈ clashingHierarchy.flattened ∧
    ((flattenSceneObjects factorProduct id clashingHierarchy factorMatrix).1.map
        (fun p => (p.1, p.2.addr)) = [("a", 1), ("ab", 3)]) ∧
    (((flattenSceneObjects factorProduct id clashingHierarchy factorMatrix).1.lookup "ab").map
        (fun r => r.addr) ≠ some 2) ∧
    ((flattenSceneObjects factorProduct id clashingHierarchyReversed factorMatrix).1.map
        (fun p => (p.1, p.2.addr)) = [("ab", 2), ("a", 1)]) ∧
    (((flattenSceneObjects factorProduct id clashingHierarchyReversed
        factorMatrix).1.lookup "ab").map (fun r => r.addr) ≠ some 3) := by
  refine ⟨?_, ?_, ?_, ?_, ?_, ?_⟩
  · simp [clashingHierarchy, Objects.flattened]
  · simp [clashingHierarchy, Objects.flattened]
  · simp [flattenSceneObjects, flattenInto, flattenChildren, mapSet, clashingHierarchy,
      Objects.length]
  · simp [flattenSceneObjects, flattenInto, flattenChildren, mapSet, clashingHierarchy,
      Objects.length, List.lookup]
  · simp [flattenSceneObjects, flattenInto, flattenChildren, mapSet,
      clashingHierarchyReversed, Objects.length]
  · simp [flattenSceneObjects, flattenInto, flattenChildren, mapSet,
      clashingHierarchyReversed, Objects.length, List.lookup]

/-- C12, amended.  For every finite object hierarchy in which no object occurs
twice and the concatenated names of the objects are pairwise distinct, and
for every order in which `range` visits the entries of a map:
`flattenSceneObjects` stores every object in the map it returns, and nothing
else.  Each object is stored under the concatenation of the names along its
path from the root, and its matrix is its own original matrix multiplied
successively by the original matrix of each ancestor from its parent up to the
top-level object (own x parent x ... x root); a top-level object is stored
under its own name with its matrix unchanged. -/
theorem flattenSceneObjects_moves_to_root {Mat : Type} (mul : Mat → Mat → Mat)
    (order : List (String × ObjectRef) → List (String × ObjectRef))
    (objects : Objects) (m : Nat → Mat)
    (horder : ∀ l, (order l).Perm l)
    (haddr : (objects.flattened.map (fun e => e.2.1.addr)).Nodup)
    (hkeys : (objects.flattened.map (fun e => e.1)).Nodup) :
    (∀ e ∈ objects.flattened,
      (flattenSceneObjects mul order objects m).1.lookup e.1 = some e.2.1 ∧
      (flattenSceneObjects mul order objects m).2 e.2.1.addr
        = successiveProduct mul m e.2.1.addr e.2.2 ∧
      (e.2.2 = [] → (flattenSceneObjects mul order objects m).2 e.2.1.addr = m e.2.1.addr)) ∧
    (flattenSceneObjects mul order objects m).1.length = objects.flattened.length := by
  obtain ⟨W, hW, hP, hm, _⟩ := flattenInto_spec mul order horder objects [] m haddr hkeys
    (by simp)
  simp only [List.nil_append] at hW
  have hWkeys : (W.map Prod.fst).Nodup := by
    have h1 := hP.map Prod.fst
    rw [h1.nodup_iff]
    simpa [List.map_map, Function.comp_def] using hkeys
  refine ⟨fun e he => ⟨?_, hm e he, fun hnil => ?_⟩, ?_⟩
  · show (flattenInto mul order objects [] m).1.lookup e.1 = some e.2.1
    rw [hW]
    apply lookup_of_mem_nodup W e.1 e.2.1 hWkeys
    exact hP.mem_iff.mpr (List.mem_map.mpr ⟨e, he, rfl⟩)
  · have := hm e he
    rw [hnil] at this
    exact this
  · show (flattenInto mul order objects [] m).1.length = _
    rw [hW, hP.length_eq, List.length_map]

/-- Witness for C12, amended: the example hierarchy, with the entries of a map
visited in reverse order. -/
theorem flattenSceneObjects_moves_to_root_witness :
    (∀ e ∈ exampleHierarchy.flattened,
      (flattenSceneObjects factorProduct List.reverse exampleHierarchy factorMatrix).1.lookup e.1
        = some e.2.1 ∧
      (flattenSceneObjects factorProduct List.reverse exampleHierarchy factorMatrix).2 e.2.1.addr
        = successiveProduct factorProduct factorMatrix e.2.1.addr e.2.2 ∧
      (e.2.2 = [] →
        (flattenSceneObjects factorProduct List.reverse exampleHierarchy factorMatrix).2
          e.2.1.addr = factorMatrix e.2.1.addr)) ∧
    (flattenSceneObjects factorProduct List.reverse exampleHierarchy factorMatrix).1.length
      = exampleHierarchy.flattened.length :=
  flattenSceneObjects_moves_to_root factorProduct List.reverse exampleHierarchy factorMatrix
    (fun l => List.reverse_perm l)
    (by simp [exampleHierarchy, Objects.flattened])
    (by decide)

/-- The example hierarchy flattened: `hand` is stored under `rootarmhand` with
the matrix `hand x arm x root`, `arm` under `rootarm` with `arm x root`, and
the top-level objects keep their names and matrices. -/
theorem flattenSceneObjects_example :
    (flattenSceneObjects factorProduct id exampleHierarchy factorMatrix).1.map
        (fun p => (p.1, p.2.addr))
      = [("root", 1), ("rootarm", 2), ("rootarmhand", 3), ("lamp", 4)] ∧
    (flattenSceneObjects factorProduct id exampleHierarchy factorMatrix).2 3 = [3, 2, 1] ∧
    (flattenSceneObjects factorProduct id exampleHierarchy factorMatrix).2 2 = [2, 1] ∧
    (flattenSceneObjects factorProduct id exampleHierarchy factorMatrix).2 1 = [1] ∧
    (flattenSceneObjects factorProduct id exampleHierarchy factorMatrix).2 4 = [4] := by
  refine ⟨?_, ?_, ?_, ?_, ?_⟩ <;>
    simp [flattenSceneObjects, flattenInto, flattenChildren, mapSet, exampleHierarchy,
      Objects.length, Function.update, factorProduct, factorMatrix]

end Raylar
